import Mathlib

/-!
# FluidSynth MIDI decoder (`src/decoder_fluidsynth.cpp`)

A shallow embedding of the decoder's process-wide state, its constructor and
destructor, `Initialize`, `FillBuffer`, `OnMidiMessage`, `OnMidiReset` and the
stream bridge (`vio_open`, `vio_read`, `vio_seek`, `vio_tell`); the theorems
about them follow the definitions.

Modelling conventions

* A C pointer is an `Option Nat`; `none` is `nullptr`.
* The synthesis engine is external.  Every call made to it is appended to
  `World.trace`; what the engine answers (the pointer returned by
  `new_fluid_synth`, the return value of `fluid_synth_sfload`, of
  `fluid_synth_write_s16`) is an argument of the embedded function.
* `World.alive` is the engine-side set of synths created by `new_fluid_synth`
  and not yet passed to `delete_fluid_synth`.
* The `HAVE_FLUIDSYNTH` variant of the conditional code is the one embedded.
* `int` values stay far from the 32-bit range in everything stated here, so
  they are `Int`/`Nat` without wrap-around.
-/

namespace FluidSynth

/-- A C pointer: `none` is `nullptr`. -/
abbrev Ptr := Option Nat

/-- The engine's `FLUID_FAILED`. -/
def FLUID_FAILED : Int := -1

/-- The engine's `FLUID_INTERP_LINEAR`. -/
def FLUID_INTERP_LINEAR : Int := 1

/-- One call made by the decoder to the synthesis engine, with its arguments. -/
inductive EngineCall where
  | new_fluid_settings
  | fluid_settings_setstr (settings : Ptr) (key value : String)
  | fluid_settings_setint (settings : Ptr) (key : String) (value : Int)
  | fluid_settings_setnum (settings : Ptr) (key value : String)
  | new_fluid_defsfloader (settings : Ptr)
  | fluid_sfloader_set_callbacks (loader : Ptr)
  | new_fluid_synth (settings : Ptr)
  | fluid_synth_add_sfloader (syn loader : Ptr)
  | fluid_synth_sfload (syn : Ptr) (name : String) (reset_presets : Int)
  | fluid_synth_set_interp_method (syn : Ptr) (chan method : Int)
  | fluid_synth_program_reset (syn : Ptr)
  | delete_fluid_synth (syn : Ptr)
  | fluid_synth_write_s16 (syn : Ptr) (len loff lincr roff rincr : Int)
  | fluid_synth_noteoff (syn : Ptr) (chan key : Nat)
  | fluid_synth_noteon (syn : Ptr) (chan key vel : Nat)
  | fluid_synth_key_pressure (syn : Ptr) (chan key val : Nat)
  | fluid_synth_cc (syn : Ptr) (chan num val : Nat)
  | fluid_synth_program_change (syn : Ptr) (chan prognum : Nat)
  | fluid_synth_channel_pressure (syn : Ptr) (chan val : Nat)
  | fluid_synth_pitch_bend (syn : Ptr) (chan val : Nat)
  | fluid_synth_system_reset (syn : Ptr)
  deriving DecidableEq, Repr

/-- The file-scope variables of the translation unit (`global_settings`,
`global_synth`, `global_loader`, `instances`), the function-local statics of
`Initialize` (`init`, `once`), and the observable record of the outside world:
the engine's live synths, the calls made to the engine, and the lines handed to
`Output::Debug`. -/
structure World where
  global_settings : Ptr
  global_synth : Ptr
  global_loader : Ptr
  instances : Int
  init : Bool
  once : Bool
  alive : List Nat
  trace : List EngineCall
  debug : List String
  deriving DecidableEq, Repr

/-- The state at process start: null globals, `instances = 0`, both statics
`false`, nothing created, nothing called. -/
def processStart : World :=
  { global_settings := none, global_synth := none, global_loader := none,
    instances := 0, init := false, once := false,
    alive := [], trace := [], debug := [] }

/-- A decoder object: its only data member is `instance_synth`. -/
structure FluidSynthDecoder where
  instance_synth : Ptr
  deriving DecidableEq, Repr

/-- Append one engine call to the trace. -/
def World.call (w : World) (c : EngineCall) : World :=
  { w with trace := w.trace ++ [c] }

/-- `FluidSynthDecoder::OnMidiMessage(uint32_t message)`.  The `switch` on
`event & 0xF0` is the chain of comparisons below, in source order, the label
`case 0xFF` included. -/
def OnMidiMessage (w : World) (self : FluidSynthDecoder) (message : Nat) : World :=
  if self.instance_synth = none then w
  else
    let event := message &&& 0xFF
    let channel := event &&& 0x0F
    let param1 := (message >>> 8) &&& 0x7F
    let param2 := (message >>> 16) &&& 0x7F
    let sel := event &&& 0xF0
    if sel = 0x80 then
      w.call (.fluid_synth_noteoff self.instance_synth channel param1)
    else if sel = 0x90 then
      w.call (.fluid_synth_noteon self.instance_synth channel param1 param2)
    else if sel = 0xA0 then
      w.call (.fluid_synth_key_pressure self.instance_synth event param1 param2)
    else if sel = 0xB0 then
      w.call (.fluid_synth_cc self.instance_synth channel param1 param2)
    else if sel = 0xC0 then
      w.call (.fluid_synth_program_change self.instance_synth channel param1)
    else if sel = 0xD0 then
      w.call (.fluid_synth_channel_pressure self.instance_synth channel param1)
    else if sel = 0xE0 then
      w.call (.fluid_synth_pitch_bend self.instance_synth channel
        (((param2 &&& 0x7F) <<< 7) ||| (param1 &&& 0x7F)))
    else if sel = 0xFF then
      w.call (.fluid_synth_system_reset self.instance_synth)
    else w

/-- `FluidSynthDecoder::OnMidiReset()`. -/
def OnMidiReset (w : World) (self : FluidSynthDecoder) : World :=
  if self.instance_synth = none then w
  else w.call (.fluid_synth_system_reset self.instance_synth)

/-- What the engine answers while `create_synth` runs: the pointer returned by
`new_fluid_synth` and the value returned by `fluid_synth_sfload`. -/
structure SynthReply where
  syn : Ptr
  sfload : Int
  deriving DecidableEq, Repr

/-- What the engine answers during a first `Initialize`: the pointers returned
by `new_fluid_settings` and `new_fluid_defsfloader`, and the answers used by
`create_synth`. -/
structure InitReply where
  settings : Ptr
  loader : Ptr
  synth : SynthReply
  deriving DecidableEq, Repr

/-- Engine side of `new_fluid_synth`: a non-null result is a live synth. -/
def World.created (w : World) (p : Ptr) : World :=
  match p with
  | none => w
  | some q => { w with alive := w.alive ++ [q] }

/-- The call `delete_fluid_synth(p)`: the synth stops being live; a null
argument is accepted by the engine and frees nothing. -/
def World.delete_fluid_synth (w : World) (p : Ptr) : World :=
  let w1 := w.call (.delete_fluid_synth p)
  match p with
  | none => w1
  | some q => { w1 with alive := w1.alive.filter (fun x => x ≠ q) }

/-- `create_synth(std::string& error_message)`: returns the world, the returned
pointer and the value left in `error_message`.  On the failure path the synth
just created is returned to nobody and is not deleted. -/
def create_synth (w : World) (r : SynthReply) (error_message : String) :
    World × Ptr × String :=
  let w1 := (w.call (.new_fluid_synth w.global_settings)).created r.syn
  let w2 := w1.call (.fluid_synth_add_sfloader r.syn w1.global_loader)
  let w3 := w2.call (.fluid_synth_sfload r.syn "easyrpg.soundfont" 1)
  if r.sfload = FLUID_FAILED then
    (w3, none, "Could not load soundfont.")
  else
    (w3.call (.fluid_synth_set_interp_method r.syn (-1) FLUID_INTERP_LINEAR),
      r.syn, error_message)

/-- `FluidSynthDecoder::FluidSynthDecoder()`: returns the world and the object
constructed. -/
def FluidSynthDecoder.ctor (w : World) (r : SynthReply) : World × FluidSynthDecoder :=
  let w1 := { w with instances := w.instances + 1 }
  if w1.instances > 1 then
    match create_synth w1 r "" with
    | (w2, instance_synth, error_message) =>
      if instance_synth = none then
        ({ w2 with debug := w2.debug ++ ["FluidSynth failed: " ++ error_message] },
          { instance_synth := instance_synth })
      else
        (w2, { instance_synth := instance_synth })
  else
    (w1.call (.fluid_synth_program_reset w1.global_synth),
      { instance_synth := w1.global_synth })

/-- Why a run stops: an operation named an object that is not live, or the
destructor's `assert(instances >= 0)` failed. -/
inductive Fault where
  | not_live
  | assertion_failed
  deriving DecidableEq, Repr

/-- `FluidSynthDecoder::~FluidSynthDecoder()`. -/
def FluidSynthDecoder.dtor (w : World) (self : FluidSynthDecoder) : Except Fault World :=
  let w1 := { w with instances := w.instances - 1 }
  if w1.instances ≥ 0 then
    if self.instance_synth ≠ w1.global_synth then
      .ok (w1.delete_fluid_synth self.instance_synth)
    else
      .ok w1
  else
    .error .assertion_failed

/-- The block of `Initialize` guarded by `if (!global_settings)`.
`EP_MIDI_FREQ` and the literal `0.6` are kept as their source text. -/
def setupSettings (w : World) (r : InitReply) : World :=
  let w1 := { w.call .new_fluid_settings with global_settings := r.settings }
  let s := w1.global_settings
  let w2 := w1.call (.fluid_settings_setstr s "player.timing-source" "sample")
  let w3 := w2.call (.fluid_settings_setint s "synth.lock-memory" 0)
  let w4 := w3.call (.fluid_settings_setnum s "synth.gain" "0.6")
  let w5 := w4.call (.fluid_settings_setnum s "synth.sample-rate" "EP_MIDI_FREQ")
  let w6 := w5.call (.fluid_settings_setint s "synth.polyphony" 256)
  let w7 := w6.call (.fluid_settings_setint s "synth.reverb.active" 0)
  let w8 := w7.call (.fluid_settings_setint s "synth.chorus.active" 0)
  let w9 := { w8.call (.new_fluid_defsfloader s) with global_loader := r.loader }
  w9.call (.fluid_sfloader_set_callbacks w9.global_loader)

/-- `FluidSynthDecoder::Initialize(std::string& error_message)`: returns the
world, the returned `bool` and the value left in `error_message`. -/
def Initialize (w : World) (r : InitReply) (error_message : String) :
    World × Bool × String :=
  if w.once then (w, w.init, error_message)
  else
    let w0 := { w with once := true }
    let w1 := if w0.global_settings = none then setupSettings w0 r else w0
    if w1.global_synth = none then
      match create_synth w1 r.synth error_message with
      | (w2, syn, err) =>
        let w3 := { w2 with global_synth := syn }
        if w3.global_synth = none then (w3, false, err)
        else ({ w3 with init := true }, true, err)
    else
      ({ w1 with init := true }, true, error_message)

/-- `FluidSynthDecoder::FillBuffer(uint8_t* buffer, int length)`: `write_ret` is
what `fluid_synth_write_s16` returns; the result is the world and the returned
`int`.  `length / 4` is C division, which truncates. -/
def FillBuffer (w : World) (self : FluidSynthDecoder) (length : Int) (write_ret : Int) :
    World × Int :=
  if self.instance_synth = none then (w, -1)
  else
    let w1 := w.call (.fluid_synth_write_s16 self.instance_synth (Int.tdiv length 4) 0 2 1 2)
    if write_ret = FLUID_FAILED then (w1, -1)
    else (w1, length)

/-! ### Stream bridge -/

/-- A `Filesystem_Stream::InputStream` as the bridge sees it: the bytes, the
read position and the three state bits of the underlying `std::istream`. -/
structure InputStream where
  data : List Nat
  pos : Nat
  eofbit : Bool
  failbit : Bool
  badbit : Bool
  deriving DecidableEq, Repr

/-- The stream's `operator bool`: neither `failbit` nor `badbit` is set.  A
provider that could not open the resource returns a stream for which this is
`false`. -/
def InputStream.ok (s : InputStream) : Bool := !s.failbit && !s.badbit

/-- The objects allocated with `new` by `vio_open`; the address of an object is
its index, and a closed object leaves `none` behind. -/
abbrev StreamHeap := List (Option InputStream)

/-- `vio_open(const char* filename)`: `OpenInputStream` is
`FileFinder::OpenInputStream`; the result is the heap and the returned
`void*`.  `new` returns the address of a fresh object. -/
def vio_open (OpenInputStream : String → InputStream) (heap : StreamHeap)
    (filename : String) : StreamHeap × Ptr :=
  let is := OpenInputStream filename
  (heap ++ [some is], some heap.length)

/-! ### Sequences of constructions and destructions -/

/-- The world together with the decoder objects that are live, oldest first. -/
structure Sys where
  w : World
  live : List FluidSynthDecoder
  deriving DecidableEq, Repr

/-- One lifecycle operation: construct a decoder (with the engine's answers,
used only when a private synth is created) or destroy the live decoder at
position `idx`. -/
inductive Op where
  | construct (r : SynthReply)
  | destroy (idx : Nat)
  deriving DecidableEq, Repr

/-- Run one operation. -/
def step (s : Sys) (op : Op) : Except Fault Sys :=
  match op with
  | .construct r =>
    match FluidSynthDecoder.ctor s.w r with
    | (w1, d) => .ok { w := w1, live := s.live ++ [d] }
  | .destroy idx =>
    match s.live.get? idx with
    | none => .error .not_live
    | some d =>
      match FluidSynthDecoder.dtor s.w d with
      | .ok w1 => .ok { w := w1, live := s.live.eraseIdx idx }
      | .error e => .error e

/-- Run a sequence of operations, stopping at the first fault. -/
def run (s : Sys) (ops : List Op) : Except Fault Sys :=
  match ops with
  | [] => .ok s
  | op :: rest =>
    match step s op with
    | .ok s1 => run s1 rest
    | .error e => .error e

/-- Every destruction in `ops` names a decoder that is live when it runs; `n`
is the number of live decoders before `ops`. -/
def legalOps (n : Nat) (ops : List Op) : Bool :=
  match ops with
  | [] => true
  | .construct _ :: rest => legalOps (n + 1) rest
  | .destroy idx :: rest => decide (idx < n) && legalOps (n - 1) rest

/-- The pointer `p` is null, or names a synth that is neither live nor the
primary synth. -/
def freshPtr (w : World) (p : Ptr) : Bool :=
  match p with
  | none => true
  | some q => decide (q ∉ w.alive) && decide (some q ≠ w.global_synth)

/-- The engine's answer to `op` is that of an allocator: when the constructor
creates a private synth and the creation succeeds, the synth returned is
distinct from the primary synth and from every live synth. -/
def freshOp (s : Sys) (op : Op) : Bool :=
  match op with
  | .construct r =>
    if s.w.instances + 1 > 1 ∧ r.sfload ≠ FLUID_FAILED then freshPtr s.w r.syn else true
  | .destroy _ => true

/-- Every operation of the run of `ops` from `s` gets an allocator's answer. -/
def freshRun (s : Sys) (ops : List Op) : Bool :=
  match ops with
  | [] => true
  | op :: rest =>
    freshOp s op &&
      match step s op with
      | .ok s1 => freshRun s1 rest
      | .error _ => true

/-- The decoder is bound to the primary synth: its `instance_synth` is the
non-null `global_synth`. -/
def boundToPrimary (w : World) (d : FluidSynthDecoder) : Bool :=
  decide (d.instance_synth ≠ none) && decide (d.instance_synth = w.global_synth)

/-- The decoder is inert: it has no bound synth. -/
def inert (d : FluidSynthDecoder) : Bool := decide (d.instance_synth = none)

/-- The decoder is bound to a private synth: a live synth other than the
primary one. -/
def boundToPrivate (w : World) (d : FluidSynthDecoder) : Bool :=
  match d.instance_synth with
  | none => false
  | some p => decide (p ∈ w.alive) && decide (some p ≠ w.global_synth)

/-- The number of live decoders bound to the primary synth. -/
def primaryCount (s : Sys) : Nat := (s.live.filter (boundToPrimary s.w)).length

/-- No two live decoders are bound to the same synth. -/
def noSharedSynth (live : List FluidSynthDecoder) : Prop :=
  live.Pairwise (fun a b => a.instance_synth = none ∨ a.instance_synth ≠ b.instance_synth)

/-- Byte `i` of a packed message word (byte 0 is the least significant). -/
def byteOf (message i : Nat) : Nat := message / 256 ^ i % 256

/-- The high nibble of a byte. -/
def highNibble (b : Nat) : Nat := b / 16

/-- The low nibble of a byte. -/
def lowNibble (b : Nat) : Nat := b % 16

/-- A byte masked to its low 7 bits. -/
def mask7 (b : Nat) : Nat := b % 128

/-- Call `Initialize` once per element of `calls` (the engine's answers and the
caller's `error_message` for that call), returning the final world and the
results in order. -/
def initializeCalls (w : World) (calls : List (InitReply × String)) : World × List Bool :=
  match calls with
  | [] => (w, [])
  | (r, e) :: rest =>
    match Initialize w r e with
    | (w1, b, _) =>
      match initializeCalls w1 rest with
      | (w2, bs) => (w2, b :: bs)

/-- The state a run ends in; the starting state when the run stops at a
fault. -/
def finalState (s : Sys) (ops : List Op) : Sys :=
  match run s ops with
  | .ok s1 => s1
  | .error _ => s

/-- The system right after a first `Initialize` at process start: no decoder
is live yet. -/
def afterInitialize (r0 : InitReply) (e0 : String) : Sys :=
  { w := (Initialize processStart r0 e0).1, live := [] }

/-- A stream provider that cannot open anything: every stream it returns has
`failbit` and `badbit` set. -/
def failingProvider : String → InputStream :=
  fun _ => { data := [], pos := 0, eofbit := false, failbit := true, badbit := true }

/-- The world a destructor call leaves when its assertion holds. -/
def dtorWorld (w : World) (self : FluidSynthDecoder) : World :=
  if self.instance_synth ≠ w.global_synth then
    ({ w with instances := w.instances - 1 } : World).delete_fluid_synth self.instance_synth
  else
    { w with instances := w.instances - 1 }

/-- What every run from an empty decoder set keeps true: the counter is the
number of live decoders, a bound synth is live or is the primary one, and no
two live decoders share a synth. -/
structure Inv (s : Sys) : Prop where
  count : s.w.instances = s.live.length
  bound : ∀ d ∈ s.live, ∀ p, d.instance_synth = some p →
    p ∈ s.w.alive ∨ some p = s.w.global_synth
  distinct : noSharedSynth s.live

/-- The oldest live decoder, when there is one, is bound to the primary
synth. -/
def headPrimary (s : Sys) : Prop :=
  ∀ d, s.live.head? = some d → boundToPrimary s.w d = true

/-- Whether, after `ops`, the oldest live decoder is one that was constructed
while no decoder was live.  `n` is the number of live decoders before `ops` and
`held` says whether this holds of the oldest of them.  A construction with no
decoder live makes it hold; destroying the oldest live decoder ends it, until
a construction with no decoder live makes it hold again. -/
def oldestIsFirst (n : Nat) (held : Bool) : List Op → Bool
  | [] => held
  | .construct _ :: rest => oldestIsFirst (n + 1) (if n = 0 then true else held) rest
  | .destroy idx :: rest => oldestIsFirst (n - 1) (if idx = 0 then false else held) rest

/-- The oldest live decoder exists and is bound to the primary synth. -/
def headBound (s : Sys) : Bool :=
  match s.live with
  | [] => false
  | d :: _ => boundToPrimary s.w d

/-- No live decoder other than the oldest is bound to the primary synth. -/
def tailUnbound (s : Sys) : Prop :=
  ∀ d ∈ s.live.tail, boundToPrimary s.w d = false

/-- Rows 0x8 to 0xD of the specification's dispatch table: the engine call for
a status high nibble, in terms of the channel, the status byte and the two data
values; `none` for every other nibble. -/
def dispatchTable (syn : Ptr) (nibble status_byte channel data1 data2 : Nat) :
    Option EngineCall :=
  if nibble = 0x8 then some (.fluid_synth_noteoff syn channel data1)
  else if nibble = 0x9 then some (.fluid_synth_noteon syn channel data1 data2)
  else if nibble = 0xA then some (.fluid_synth_key_pressure syn status_byte data1 data2)
  else if nibble = 0xB then some (.fluid_synth_cc syn channel data1 data2)
  else if nibble = 0xC then some (.fluid_synth_program_change syn channel data1)
  else if nibble = 0xD then some (.fluid_synth_channel_pressure syn channel data1)
  else none

/-- The specification's pitch-bend formula
`((data2 & 0x7F) << 7) | (data1 & 0x7F)`. -/
def pitchBendValue (data1 data2 : Nat) : Nat :=
  ((data2 &&& 0x7F) <<< 7) ||| (data1 &&& 0x7F)

/-! ### Stream operations used by the bridge -/

/-- Modelled from the spec: `std::ios_base::seekdir`, the origin of a seek
(`Filesystem_Stream` and the stream class are not part of the sources). -/
inductive Seekdir where
  | beg
  | cur
  | fromEnd
  deriving DecidableEq, Repr

/-- The C origin constant `SEEK_SET`. -/
def SEEK_SET : Int := 0

/-- The C origin constant `SEEK_CUR`. -/
def SEEK_CUR : Int := 1

/-- The C origin constant `SEEK_END`. -/
def SEEK_END : Int := 2

/-- Modelled from the spec: `Filesystem_Stream::CSeekdirToCppSeekdir`, which is
missing from the sources; it maps the C origin of a seek to the stream's. -/
def CSeekdirToCppSeekdir (origin : Int) : Seekdir :=
  if origin = SEEK_CUR then .cur
  else if origin = SEEK_END then .fromEnd
  else .beg

/-- Modelled from the spec: the stream's `good()`, missing from the sources; no
state bit is set. -/
def InputStream.good (s : InputStream) : Bool := !s.eofbit && !s.failbit && !s.badbit

/-- Modelled from the spec: the stream's `fail()`, missing from the sources. -/
def InputStream.fail (s : InputStream) : Bool := s.failbit || s.badbit

/-- Modelled from the spec: the stream's `eof()`, missing from the sources; the
end-of-data flag. -/
def InputStream.eof (s : InputStream) : Bool := s.eofbit

/-- Modelled from the spec: the stream's `clear()`, missing from the sources;
it resets the end-of-data flag together with the other state bits (the stream
has data behind it, as every stream flagged at end-of-data has). -/
def InputStream.clear (s : InputStream) : InputStream :=
  { s with eofbit := false, failbit := false, badbit := false }

/-- Modelled from the spec: the stream's `read(ptr, count)`, missing from the
sources; the result is the stream and the bytes stored, whose number is
`gcount()`.  A stream that is not good delivers nothing; a read that meets the
end of the data delivers what is left (a short read) and flags the stream at
end-of-data, which blocks it until the flag is cleared. -/
def InputStream.read (s : InputStream) (count : Int) : InputStream × List Nat :=
  if s.good then
    let out := (s.data.drop s.pos).take count.toNat
    if out.length < count.toNat then
      ({ s with pos := s.pos + out.length, eofbit := true, failbit := true }, out)
    else
      ({ s with pos := s.pos + out.length }, out)
  else
    ({ s with failbit := true }, [])

/-- Modelled from the spec: the stream's `seekg(offset, dir)`, missing from the
sources.  A failed stream is not moved; a target outside the data fails the
stream. -/
def InputStream.seekg (s : InputStream) (offset : Int) (dir : Seekdir) : InputStream :=
  let s1 := { s with eofbit := false }
  if s1.fail then s1
  else
    let base : Int :=
      match dir with
      | .beg => 0
      | .cur => s.pos
      | .fromEnd => s.data.length
    if 0 ≤ base + offset ∧ base + offset ≤ s.data.length then
      { s1 with pos := (base + offset).toNat }
    else
      { s1 with failbit := true }

/-- Modelled from the spec: the stream's `tellg()`, missing from the sources;
the absolute position, `-1` on a failed stream. -/
def InputStream.tellg (s : InputStream) : Int :=
  if s.fail then -1 else s.pos

/-- `vio_read(void* ptr, int count, void* userdata)`: `f` is the stream
`userdata` points to; the result is the stream, the bytes stored at `ptr` and
the returned `int`. -/
def vio_read (f : InputStream) (count : Int) : InputStream × List Nat × Int :=
  match f.read count with
  | (f1, bytes) => (f1, bytes, bytes.length)

/-- `vio_seek(void* userdata, long offset, int origin)`: the result is the
stream and the returned `int`. -/
def vio_seek (f : InputStream) (offset : Int) (origin : Int) : InputStream × Int :=
  let f1 := if f.eof then f.clear else f
  let f2 := f1.seekg offset (CSeekdirToCppSeekdir origin)
  (f2, f2.tellg)

/-- `vio_tell(void* userdata)`. -/
def vio_tell (f : InputStream) : Int := f.tellg

/-! ### Reading the engine trace -/

/-- The synth a call is made on: its first argument for the `fluid_synth_*`
calls and for `delete_fluid_synth`, `none` for the calls that take no synth. -/
def EngineCall.synth : EngineCall → Ptr
  | .new_fluid_settings => none
  | .fluid_settings_setstr _ _ _ => none
  | .fluid_settings_setint _ _ _ => none
  | .fluid_settings_setnum _ _ _ => none
  | .new_fluid_defsfloader _ => none
  | .fluid_sfloader_set_callbacks _ => none
  | .new_fluid_synth _ => none
  | .fluid_synth_add_sfloader syn _ => syn
  | .fluid_synth_sfload syn _ _ => syn
  | .fluid_synth_set_interp_method syn _ _ => syn
  | .fluid_synth_program_reset syn => syn
  | .delete_fluid_synth syn => syn
  | .fluid_synth_write_s16 syn _ _ _ _ _ => syn
  | .fluid_synth_noteoff syn _ _ => syn
  | .fluid_synth_noteon syn _ _ _ => syn
  | .fluid_synth_key_pressure syn _ _ _ => syn
  | .fluid_synth_cc syn _ _ _ => syn
  | .fluid_synth_program_change syn _ _ => syn
  | .fluid_synth_channel_pressure syn _ _ => syn
  | .fluid_synth_pitch_bend syn _ _ => syn
  | .fluid_synth_system_reset syn => syn

/-- The calls made since the trace had `n` entries. -/
def callsSince (w : World) (n : Nat) : List EngineCall := w.trace.drop n

/-- The range condition on the arguments of a message call: a channel argument
taken from the low nibble is in `0..15`, a data1 or data2 argument is in
`0..127`.  The first argument of `key_pressure` is the status byte, not a
channel, and the `pitch_bend` value is the 14-bit combination of data1 and
data2; the condition on it is `0..0x3FFF`. -/
def argsInRange : EngineCall → Prop
  | .fluid_synth_noteoff _ chan key => chan ≤ 15 ∧ key ≤ 127
  | .fluid_synth_noteon _ chan key vel => chan ≤ 15 ∧ key ≤ 127 ∧ vel ≤ 127
  | .fluid_synth_key_pressure _ _ key val => key ≤ 127 ∧ val ≤ 127
  | .fluid_synth_cc _ chan num val => chan ≤ 15 ∧ num ≤ 127 ∧ val ≤ 127
  | .fluid_synth_program_change _ chan prognum => chan ≤ 15 ∧ prognum ≤ 127
  | .fluid_synth_channel_pressure _ chan val => chan ≤ 15 ∧ val ≤ 127
  | .fluid_synth_pitch_bend _ chan val => chan ≤ 15 ∧ val ≤ 0x3FFF
  | _ => True

/-- Bits `lo .. lo + len - 1` of a message word. -/
def bitField (message lo len : Nat) : Nat := message / 2 ^ lo % 2 ^ len

/-! ## Bit operations as arithmetic -/

theorem and_0xFF (m : Nat) : m &&& 0xFF = m % 256 :=
  Nat.and_pow_two_sub_one_eq_mod m 8

theorem and_0x0F (m : Nat) : m &&& 0x0F = m % 16 :=
  Nat.and_pow_two_sub_one_eq_mod m 4

theorem and_0x7F (m : Nat) : m &&& 0x7F = m % 128 :=
  Nat.and_pow_two_sub_one_eq_mod m 7

set_option maxRecDepth 100000 in
theorem and_0xF0 : ∀ e, e < 256 → e &&& 0xF0 = 16 * (e / 16) := by decide

theorem param1_eq (m : Nat) : (m >>> 8) &&& 0x7F = mask7 (byteOf m 1) := by
  rw [and_0x7F, Nat.shiftRight_eq_div_pow]
  simp only [mask7, byteOf]
  omega

theorem param2_eq (m : Nat) : (m >>> 16) &&& 0x7F = mask7 (byteOf m 2) := by
  rw [and_0x7F, Nat.shiftRight_eq_div_pow]
  simp only [mask7, byteOf]
  omega

theorem event_eq (m : Nat) : m &&& 0xFF = byteOf m 0 := by
  rw [and_0xFF]
  simp [byteOf]

theorem byteOf_lt (m i : Nat) : byteOf m i < 256 := by
  unfold byteOf
  omega

theorem mask7_lt (b : Nat) : mask7 b < 128 := by
  unfold mask7
  omega

theorem pitchBendValue_eq (data1 data2 : Nat) (h1 : data1 < 128) (h2 : data2 < 128) :
    pitchBendValue data1 data2 = data1 + 128 * data2 := by
  unfold pitchBendValue
  rw [and_0x7F, and_0x7F, Nat.mod_eq_of_lt h1, Nat.mod_eq_of_lt h2, Nat.shiftLeft_eq,
    Nat.mul_comm data2, ← Nat.mul_add_lt_is_or (by simpa using h1) data2]
  norm_num
  omega

/-- The dispatch of `OnMidiMessage` on a bound decoder, with the selector
written as `16 * nibble`. -/
theorem OnMidiMessage_bound (w : World) (syn message : Nat) :
    OnMidiMessage w ⟨some syn⟩ message =
      (let event := byteOf message 0
       let channel := lowNibble event
       let param1 := mask7 (byteOf message 1)
       let param2 := mask7 (byteOf message 2)
       let sel := 16 * highNibble event
       if sel = 0x80 then w.call (.fluid_synth_noteoff (some syn) channel param1)
       else if sel = 0x90 then w.call (.fluid_synth_noteon (some syn) channel param1 param2)
       else if sel = 0xA0 then
         w.call (.fluid_synth_key_pressure (some syn) event param1 param2)
       else if sel = 0xB0 then w.call (.fluid_synth_cc (some syn) channel param1 param2)
       else if sel = 0xC0 then
         w.call (.fluid_synth_program_change (some syn) channel param1)
       else if sel = 0xD0 then
         w.call (.fluid_synth_channel_pressure (some syn) channel param1)
       else if sel = 0xE0 then
         w.call (.fluid_synth_pitch_bend (some syn) channel (pitchBendValue param1 param2))
       else if sel = 0xFF then w.call (.fluid_synth_system_reset (some syn))
       else w) := by
  have hsel : byteOf message 0 &&& 0xF0 = 16 * highNibble (byteOf message 0) := by
    rw [and_0xF0 _ (byteOf_lt message 0)]
    rfl
  have hch : byteOf message 0 &&& 0x0F = lowNibble (byteOf message 0) := by
    rw [and_0x0F]
    rfl
  simp only [OnMidiMessage, event_eq, hsel, hch, param1_eq, param2_eq, pitchBendValue]
  simp

/-! ## Message dispatch -/

/-- C1: on a decoder bound to a synth, a message whose status high nibble is
0x8 to 0xD makes `OnMidiMessage` issue exactly one engine call on that synth,
the one in the dispatch table, with channel = low nibble of byte 0, status byte
= byte 0, data1 = byte 1 masked to 7 bits, data2 = byte 2 masked to 7 bits;
nothing else in the world changes. -/
theorem OnMidiMessage_dispatch_table (w : World) (syn message : Nat)
    (h : 0x8 ≤ highNibble (byteOf message 0) ∧ highNibble (byteOf message 0) ≤ 0xD) :
    ∃ c, dispatchTable (some syn) (highNibble (byteOf message 0)) (byteOf message 0)
            (lowNibble (byteOf message 0)) (mask7 (byteOf message 1))
            (mask7 (byteOf message 2)) = some c ∧
      OnMidiMessage w ⟨some syn⟩ message = w.call c := by
  rw [OnMidiMessage_bound]
  dsimp only
  obtain ⟨h1, h2⟩ := h
  generalize highNibble (byteOf message 0) = q at h1 h2 ⊢
  interval_cases q <;> simp [dispatchTable]

theorem OnMidiMessage_dispatch_table_witness :
    (0x8 ≤ highNibble (byteOf 0x7F3C91 0) ∧ highNibble (byteOf 0x7F3C91 0) ≤ 0xD) ∧
    ∃ c, dispatchTable (some 1) (highNibble (byteOf 0x7F3C91 0)) (byteOf 0x7F3C91 0)
            (lowNibble (byteOf 0x7F3C91 0)) (mask7 (byteOf 0x7F3C91 1))
            (mask7 (byteOf 0x7F3C91 2)) = some c ∧
      OnMidiMessage processStart ⟨some 1⟩ 0x7F3C91 = processStart.call c :=
  ⟨by decide, OnMidiMessage_dispatch_table processStart 1 0x7F3C91 (by decide)⟩

/-- C2: on a bound decoder, a message whose status high nibble is 0xE makes
`OnMidiMessage` call `pitch_bend(channel, value)` with
`value = ((data2 & 0x7F) << 7) | (data1 & 0x7F)`, which is `data1 + 128 * data2`;
the value lies in `0..0x3FFF`, is `0x3FFF` when both data values are `0x7F` and
`0` when both are `0`. -/
theorem OnMidiMessage_pitch_bend (w : World) (syn message : Nat)
    (h : highNibble (byteOf message 0) = 0xE) :
    OnMidiMessage w ⟨some syn⟩ message =
        w.call (.fluid_synth_pitch_bend (some syn) (lowNibble (byteOf message 0))
          (pitchBendValue (mask7 (byteOf message 1)) (mask7 (byteOf message 2)))) ∧
      pitchBendValue (mask7 (byteOf message 1)) (mask7 (byteOf message 2)) =
        mask7 (byteOf message 1) + 128 * mask7 (byteOf message 2) ∧
      pitchBendValue (mask7 (byteOf message 1)) (mask7 (byteOf message 2)) ≤ 0x3FFF ∧
      (mask7 (byteOf message 1) = 0x7F → mask7 (byteOf message 2) = 0x7F →
        pitchBendValue (mask7 (byteOf message 1)) (mask7 (byteOf message 2)) = 0x3FFF) ∧
      (mask7 (byteOf message 1) = 0 → mask7 (byteOf message 2) = 0 →
        pitchBendValue (mask7 (byteOf message 1)) (mask7 (byteOf message 2)) = 0) := by
  have h1 := mask7_lt (byteOf message 1)
  have h2 := mask7_lt (byteOf message 2)
  have hv := pitchBendValue_eq _ _ h1 h2
  refine ⟨?_, hv, ?_, ?_, ?_⟩
  · rw [OnMidiMessage_bound]
    simp [h]
  · omega
  · intro a b
    omega
  · intro a b
    omega

theorem OnMidiMessage_pitch_bend_witness :
    highNibble (byteOf 0x7F7FE3 0) = 0xE ∧
    OnMidiMessage processStart ⟨some 1⟩ 0x7F7FE3 =
      processStart.call (.fluid_synth_pitch_bend (some 1) 3 0x3FFF) := by
  have h := OnMidiMessage_pitch_bend processStart 1 0x7F7FE3 (by decide)
  refine ⟨by decide, ?_⟩
  rw [h.1]
  decide

/-- C3, evaluated on the code: for the System Reset status byte `0xFF`, on a
decoder bound to a synth, `OnMidiMessage` issues no engine call at all, so no
`system_reset`: the selector `event & 0xF0` is `0xF0`, never the label `0xFF`. -/
theorem OnMidiMessage_0xFF_no_call (w : World) (syn : Nat) :
    OnMidiMessage w ⟨some syn⟩ 0xFF = w := by
  rw [OnMidiMessage_bound]
  have h : 16 * highNibble (byteOf 0xFF 0) = 0xF0 := by decide
  simp [h]

/-! ## Constructor and destructor, one call at a time -/

theorem ctor_instances (w : World) (r : SynthReply) :
    (FluidSynthDecoder.ctor w r).1.instances = w.instances + 1 := by
  unfold FluidSynthDecoder.ctor create_synth
  dsimp only
  split_ifs <;> cases r.syn <;> simp [World.call, World.created]

theorem ctor_global_synth (w : World) (r : SynthReply) :
    (FluidSynthDecoder.ctor w r).1.global_synth = w.global_synth := by
  unfold FluidSynthDecoder.ctor create_synth
  dsimp only
  split_ifs <;> cases r.syn <;> simp [World.call, World.created]

theorem ctor_alive_mono (w : World) (r : SynthReply) (x : Nat) (hx : x ∈ w.alive) :
    x ∈ (FluidSynthDecoder.ctor w r).1.alive := by
  unfold FluidSynthDecoder.ctor create_synth
  dsimp only
  split_ifs <;> cases r.syn <;> simp [World.call, World.created, hx]

/-- The first-instance branch: the decoder is bound to `global_synth`. -/
theorem ctor_first (w : World) (r : SynthReply) (h : ¬ w.instances + 1 > 1) :
    (FluidSynthDecoder.ctor w r).2.instance_synth = w.global_synth := by
  unfold FluidSynthDecoder.ctor
  dsimp only
  rw [if_neg h]

/-- The other branch: the decoder is bound to what `create_synth` returned,
null or the synth just created, which is then live. -/
theorem ctor_later (w : World) (r : SynthReply) (h : w.instances + 1 > 1) :
    (FluidSynthDecoder.ctor w r).2.instance_synth =
        (if r.sfload = FLUID_FAILED then none else r.syn) ∧
      ∀ p, r.syn = some p → p ∈ (FluidSynthDecoder.ctor w r).1.alive := by
  unfold FluidSynthDecoder.ctor create_synth
  dsimp only
  rw [if_pos h]
  constructor
  · split_ifs <;> simp_all
  · intro p hp
    split_ifs <;> simp [World.call, World.created, hp]

theorem dtor_ok (w : World) (self : FluidSynthDecoder) (h : 1 ≤ w.instances) :
    FluidSynthDecoder.dtor w self = .ok (dtorWorld w self) := by
  unfold FluidSynthDecoder.dtor dtorWorld
  dsimp only
  have h1 : w.instances - 1 ≥ 0 := by omega
  rw [if_pos h1]
  split_ifs <;> rfl

theorem dtor_assertion (w : World) (self : FluidSynthDecoder) (h : w.instances < 1) :
    FluidSynthDecoder.dtor w self = .error .assertion_failed := by
  unfold FluidSynthDecoder.dtor
  dsimp only
  have h1 : ¬ w.instances - 1 ≥ 0 := by omega
  rw [if_neg h1]

theorem delete_fluid_synth_instances (w : World) (p : Ptr) :
    (w.delete_fluid_synth p).instances = w.instances := by
  cases p <;> rfl

theorem delete_fluid_synth_global (w : World) (p : Ptr) :
    (w.delete_fluid_synth p).global_synth = w.global_synth := by
  cases p <;> rfl

theorem mem_delete_fluid_synth (w : World) (q x : Nat) :
    x ∈ (w.delete_fluid_synth (some q)).alive ↔ x ∈ w.alive ∧ x ≠ q := by
  simp [World.delete_fluid_synth, World.call]

theorem delete_fluid_synth_null (w : World) :
    (w.delete_fluid_synth none).alive = w.alive := rfl

theorem dtorWorld_instances (w : World) (self : FluidSynthDecoder) :
    (dtorWorld w self).instances = w.instances - 1 := by
  unfold dtorWorld
  split_ifs <;> simp [delete_fluid_synth_instances]

theorem dtorWorld_global (w : World) (self : FluidSynthDecoder) :
    (dtorWorld w self).global_synth = w.global_synth := by
  unfold dtorWorld
  split_ifs <;> simp [delete_fluid_synth_global]

theorem mem_dtorWorld_alive (w : World) (self : FluidSynthDecoder) (x : Nat) :
    x ∈ (dtorWorld w self).alive ↔
      x ∈ w.alive ∧ (self.instance_synth ≠ w.global_synth → self.instance_synth ≠ some x) := by
  unfold dtorWorld
  split_ifs with h
  · cases hq : self.instance_synth with
    | none => simp [delete_fluid_synth_null]
    | some q =>
      rw [mem_delete_fluid_synth]
      simp only [ne_eq, Option.some.injEq]
      constructor
      · rintro ⟨h1, h2⟩
        exact ⟨h1, fun _ h3 => h2 h3.symm⟩
      · rintro ⟨h1, h2⟩
        exact ⟨h1, fun h3 => h2 (by rw [← hq]; exact h) h3.symm⟩
  · simp only [ne_eq, not_not] at h
    simp [h]

theorem get?_split {α : Type} (l : List α) (i : Nat) (d : α) (h : l.get? i = some d) :
    ∃ l1 l2, l = l1 ++ d :: l2 ∧ l.eraseIdx i = l1 ++ l2 ∧ l1.length = i := by
  induction l generalizing i with
  | nil => simp at h
  | cons a t ih =>
    cases i with
    | zero =>
      simp at h
      exact ⟨[], t, by simp [h], by simp, rfl⟩
    | succ n =>
      rw [List.get?_cons_succ] at h
      obtain ⟨l1, l2, e1, e2, e3⟩ := ih n h
      refine ⟨a :: l1, l2, by simp [e1], ?_, by simp [e3]⟩
      rw [List.eraseIdx_cons_succ, e2]
      rfl

/-! ## The lifecycle invariant -/

theorem Inv_start (w0 : World) (h0 : w0.instances = 0) : Inv ⟨w0, []⟩ :=
  ⟨by simp [h0], by simp, by simp [noSharedSynth]⟩

theorem step_construct (s : Sys) (r : SynthReply) :
    step s (.construct r) =
      .ok ⟨(FluidSynthDecoder.ctor s.w r).1, s.live ++ [(FluidSynthDecoder.ctor s.w r).2]⟩ :=
  rfl

theorem step_destroy (s : Sys) (idx : Nat) (d : FluidSynthDecoder)
    (hd : s.live.get? idx = some d) (h : 1 ≤ s.w.instances) :
    step s (.destroy idx) = .ok ⟨dtorWorld s.w d, s.live.eraseIdx idx⟩ := by
  simp only [step, hd, dtor_ok s.w d h]

theorem step_destroy_not_live (s : Sys) (idx : Nat) (hd : s.live.get? idx = none) :
    step s (.destroy idx) = .error .not_live := by
  simp only [step, hd]

theorem Inv_construct (s : Sys) (r : SynthReply) (hinv : Inv s)
    (hfresh : freshOp s (.construct r) = true) :
    Inv ⟨(FluidSynthDecoder.ctor s.w r).1, s.live ++ [(FluidSynthDecoder.ctor s.w r).2]⟩ := by
  obtain ⟨hc, hb, hd⟩ := hinv
  by_cases hbr : s.w.instances + 1 > 1
  · obtain ⟨hsyn, hal⟩ := ctor_later s.w r hbr
    refine ⟨?_, ?_, ?_⟩
    · simp [ctor_instances, hc]
    · intro d hdm p hp
      simp only [ctor_global_synth]
      rcases List.mem_append.1 hdm with hold | hnew
      · rcases hb d hold p hp with h1 | h1
        · exact Or.inl (ctor_alive_mono s.w r p h1)
        · exact Or.inr h1
      · rw [List.mem_singleton] at hnew
        subst hnew
        rw [hsyn] at hp
        split_ifs at hp with hf
        exact Or.inl (hal p hp)
    · refine List.pairwise_append.2 ⟨hd, List.pairwise_singleton _ _, ?_⟩
      intro a ha b hbm
      rw [List.mem_singleton] at hbm
      subst hbm
      rw [hsyn]
      split_ifs with hf
      · cases h : a.instance_synth <;> simp
      · cases h : a.instance_synth with
        | none => exact Or.inl rfl
        | some q =>
          right
          intro heq
          have hfr : freshPtr s.w r.syn = true := by
            simpa [freshOp, hbr, hf] using hfresh
          rw [← heq] at hfr
          simp only [freshPtr, Bool.and_eq_true, decide_eq_true_eq] at hfr
          rcases hb a ha q h with h1 | h1
          · exact hfr.1 h1
          · exact hfr.2 h1
  · have hlen : s.live = [] := by
      have : s.live.length = 0 := by omega
      exact List.length_eq_zero.1 this
    have hsyn := ctor_first s.w r hbr
    refine ⟨?_, ?_, ?_⟩
    · simp [ctor_instances, hc]
    · intro d hdm p hp
      simp only [ctor_global_synth]
      simp only [hlen, List.nil_append, List.mem_singleton] at hdm
      subst hdm
      right
      rw [← hp, hsyn]
    · simp [hlen, noSharedSynth]

theorem Inv_destroy (s : Sys) (idx : Nat) (d : FluidSynthDecoder) (hinv : Inv s)
    (hget : s.live.get? idx = some d) :
    Inv ⟨dtorWorld s.w d, s.live.eraseIdx idx⟩ := by
  obtain ⟨hc, hb, hd⟩ := hinv
  obtain ⟨l1, l2, e1, e2, -⟩ := get?_split s.live idx d hget
  have hsub : (s.live.eraseIdx idx).Sublist s.live := List.eraseIdx_sublist _ _
  have hd0 := hd
  rw [noSharedSynth, e1, List.pairwise_append, List.pairwise_cons] at hd
  obtain ⟨-, ⟨hd2, -⟩, hd1⟩ := hd
  refine ⟨?_, ?_, ?_⟩
  · have hl : (s.live.eraseIdx idx).length + 1 = s.live.length := by
      rw [e2, e1]
      simp
      omega
    simp only [dtorWorld_instances]
    omega
  · intro a ha p hp
    simp only [dtorWorld_global]
    rcases hb a (hsub.subset ha) p hp with h1 | h1
    · left
      simp only [mem_dtorWorld_alive]
      refine ⟨h1, fun _ hq => ?_⟩
      simp only at ha
      rw [e2] at ha
      rcases List.mem_append.1 ha with h3 | h3
      · rcases hd1 a h3 d (List.mem_cons_self _ _) with h4 | h4
        · rw [hp] at h4
          cases h4
        · exact h4 (by rw [hp, hq])
      · rcases hd2 a h3 with h4 | h4
        · rw [hq] at h4
          cases h4
        · exact h4 (by rw [hp, hq])
    · exact Or.inr h1
  · exact List.Pairwise.sublist hsub hd0

theorem run_nil (s : Sys) : run s [] = .ok s := rfl

theorem run_cons_ok (s s1 : Sys) (op : Op) (rest : List Op) (h : step s op = .ok s1) :
    run s (op :: rest) = run s1 rest := by
  simp only [run, h]

theorem run_cons_error (s : Sys) (op : Op) (rest : List Op) (e : Fault)
    (h : step s op = .error e) : run s (op :: rest) = .error e := by
  simp only [run, h]

theorem get?_some_length {α : Type} (l : List α) (i : Nat) (d : α)
    (h : l.get? i = some d) : i < l.length := by
  obtain ⟨hlt, -⟩ := List.get?_eq_some.1 h
  exact hlt

/-- A step that succeeds from a state whose counter is the number of live
decoders is a construction or the destruction of a live decoder. -/
theorem step_ok_cases (s s1 : Sys) (op : Op) (hc : s.w.instances = s.live.length)
    (h : step s op = .ok s1) :
    (∃ r, op = .construct r ∧
        s1 = ⟨(FluidSynthDecoder.ctor s.w r).1,
          s.live ++ [(FluidSynthDecoder.ctor s.w r).2]⟩) ∨
      (∃ idx d, op = .destroy idx ∧ s.live.get? idx = some d ∧
        s1 = ⟨dtorWorld s.w d, s.live.eraseIdx idx⟩) := by
  cases op with
  | construct r =>
    left
    rw [step_construct] at h
    exact ⟨r, rfl, (Except.ok.inj h).symm⟩
  | destroy idx =>
    right
    cases hg : s.live.get? idx with
    | none =>
      rw [step_destroy_not_live s idx hg] at h
      cases h
    | some d =>
      have hlt := get?_some_length _ _ _ hg
      have h1 : 1 ≤ s.w.instances := by omega
      rw [step_destroy s idx d hg h1] at h
      exact ⟨idx, d, rfl, hg, (Except.ok.inj h).symm⟩

theorem Inv_step (s s1 : Sys) (op : Op) (hinv : Inv s) (hfresh : freshOp s op = true)
    (h : step s op = .ok s1) : Inv s1 := by
  rcases step_ok_cases s s1 op hinv.count h with ⟨r, rfl, rfl⟩ | ⟨idx, d, rfl, hg, rfl⟩
  · exact Inv_construct s r hinv hfresh
  · exact Inv_destroy s idx d hinv hg

theorem Inv_run (ops : List Op) (s s1 : Sys) (hinv : Inv s)
    (hfresh : freshRun s ops = true) (h : run s ops = .ok s1) : Inv s1 := by
  induction ops generalizing s with
  | nil =>
    rw [run_nil] at h
    cases h
    exact hinv
  | cons op rest ih =>
    cases hs : step s op with
    | error e =>
      rw [run_cons_error s op rest e hs] at h
      cases h
    | ok s2 =>
      rw [run_cons_ok s s2 op rest hs] at h
      simp only [freshRun, hs, Bool.and_eq_true] at hfresh
      exact ih s2 (Inv_step s s2 op hinv hfresh.1 hs) hfresh.2 h

theorem global_synth_step (s s1 : Sys) (op : Op) (hc : s.w.instances = s.live.length)
    (h : step s op = .ok s1) : s1.w.global_synth = s.w.global_synth := by
  rcases step_ok_cases s s1 op hc h with ⟨r, rfl, rfl⟩ | ⟨idx, d, rfl, hg, rfl⟩
  · exact ctor_global_synth s.w r
  · exact dtorWorld_global s.w d

/-! ## Who is bound to the primary synth -/

theorem filter_primary_le_one (w : World) (l : List FluidSynthDecoder)
    (h : noSharedSynth l) : (l.filter (boundToPrimary w)).length ≤ 1 := by
  induction l with
  | nil => simp
  | cons a t ih =>
    rw [noSharedSynth, List.pairwise_cons] at h
    obtain ⟨ha, ht⟩ := h
    by_cases hp : boundToPrimary w a = true
    · have hnil : t.filter (boundToPrimary w) = [] := by
        rw [List.filter_eq_nil_iff]
        intro b hb hbp
        simp only [boundToPrimary, Bool.and_eq_true, decide_eq_true_eq] at hp hbp
        rcases ha b hb with h1 | h1
        · exact hp.1 h1
        · exact h1 (by rw [hp.2, hbp.2])
      rw [List.filter_cons_of_pos hp, hnil]
      simp
    · rw [List.filter_cons_of_neg hp]
      exact ih ht

/-- Under the invariant every live decoder is bound to the primary synth, bound
to a private synth, or inert. -/
theorem Inv_classify (s : Sys) (hinv : Inv s) (d : FluidSynthDecoder) (hd : d ∈ s.live) :
    boundToPrimary s.w d = true ∨ boundToPrivate s.w d = true ∨ inert d = true := by
  cases hq : d.instance_synth with
  | none =>
    right
    right
    simp [inert, hq]
  | some p =>
    by_cases hg : some p = s.w.global_synth
    · left
      simp [boundToPrimary, hq, hg.symm]
    · right
      left
      rcases hinv.bound d hd p hq with h1 | h1
      · simp [boundToPrivate, hq, h1, hg]
      · exact absurd h1 hg

theorem headPrimary_step (s s1 : Sys) (op : Op) (hinv : Inv s)
    (hg : s.w.global_synth ≠ none) (hh : headPrimary s) (hop : op ≠ .destroy 0)
    (h : step s op = .ok s1) : headPrimary s1 := by
  rcases step_ok_cases s s1 op hinv.count h with ⟨r, rfl, rfl⟩ | ⟨idx, d, rfl, hget, rfl⟩
  · intro d hd
    simp only at hd
    have hc := hinv.count
    cases hl : s.live with
    | nil =>
      rw [hl] at hd hc
      simp only [List.nil_append, List.head?_cons, Option.some.injEq] at hd
      have hbr : ¬ s.w.instances + 1 > 1 := by
        simp at hc
        omega
      have hsyn := ctor_first s.w r hbr
      subst hd
      simp only [boundToPrimary, ctor_global_synth, hsyn, Bool.and_eq_true, decide_eq_true_eq]
      exact ⟨hg, trivial⟩
    | cons a t =>
      rw [hl] at hd
      simp only [List.cons_append, List.head?_cons, Option.some.injEq] at hd
      subst hd
      have := hh a (by rw [hl]; rfl)
      simpa [boundToPrimary, ctor_global_synth] using this
  · intro a ha
    simp only at ha
    cases idx with
    | zero => exact absurd rfl hop
    | succ n =>
      cases hl : s.live with
      | nil =>
        rw [hl] at hget
        simp at hget
      | cons b t =>
        rw [hl, List.eraseIdx_cons_succ] at ha
        simp only [List.head?_cons, Option.some.injEq] at ha
        subst ha
        have := hh b (by rw [hl]; rfl)
        simpa [boundToPrimary, dtorWorld_global] using this

theorem headPrimary_run (ops : List Op) (s s1 : Sys) (hinv : Inv s)
    (hg : s.w.global_synth ≠ none) (hh : headPrimary s)
    (hops : ∀ op ∈ ops, op ≠ .destroy 0)
    (hfresh : freshRun s ops = true) (h : run s ops = .ok s1) : headPrimary s1 := by
  induction ops generalizing s with
  | nil =>
    rw [run_nil] at h
    cases h
    exact hh
  | cons op rest ih =>
    cases hs : step s op with
    | error e =>
      rw [run_cons_error s op rest e hs] at h
      cases h
    | ok s2 =>
      rw [run_cons_ok s s2 op rest hs] at h
      simp only [freshRun, hs, Bool.and_eq_true] at hfresh
      have hg2 : s2.w.global_synth ≠ none := by
        rw [global_synth_step s s2 op hinv.count hs]
        exact hg
      exact ih s2 (Inv_step s s2 op hinv hfresh.1 hs) hg2
        (headPrimary_step s s2 op hinv hg hh (hops op (List.mem_cons_self _ _)) hs)
        (fun o ho => hops o (List.mem_cons_of_mem _ ho)) hfresh.2 h

theorem headPrimary_count (s : Sys) (hh : headPrimary s) (hl : 1 ≤ s.live.length) :
    1 ≤ primaryCount s := by
  unfold primaryCount
  cases hlive : s.live with
  | nil =>
    rw [hlive] at hl
    simp at hl
  | cons a t =>
    have := hh a (by rw [hlive]; rfl)
    rw [List.filter_cons_of_pos this]
    simp

/-! ## `Initialize` -/

theorem create_synth_fields (w : World) (r : SynthReply) (e : String) :
    (create_synth w r e).1.instances = w.instances ∧
      (create_synth w r e).1.once = w.once ∧
      (create_synth w r e).1.init = w.init ∧
      (create_synth w r e).1.global_synth = w.global_synth := by
  unfold create_synth
  dsimp only
  split_ifs <;> cases r.syn <;> simp [World.call, World.created]

theorem setupSettings_fields (w : World) (r : InitReply) :
    (setupSettings w r).instances = w.instances ∧
      (setupSettings w r).once = w.once ∧
      (setupSettings w r).init = w.init ∧
      (setupSettings w r).global_synth = w.global_synth := by
  simp [setupSettings, World.call]

theorem Initialize_again (w : World) (r : InitReply) (e : String) (h : w.once = true) :
    Initialize w r e = (w, w.init, e) := by
  unfold Initialize
  rw [if_pos h]

theorem Initialize_first_eq (w : World) (r : InitReply) (e : String) (h : w.once = false) :
    Initialize w r e =
      (let w1 := if ({ w with once := true } : World).global_settings = none
          then setupSettings { w with once := true } r else { w with once := true }
       if w1.global_synth = none then
         (if (create_synth w1 r.synth e).2.1 = none then
            ({ (create_synth w1 r.synth e).1 with
                global_synth := (create_synth w1 r.synth e).2.1 },
              false, (create_synth w1 r.synth e).2.2)
          else
            ({ (create_synth w1 r.synth e).1 with
                global_synth := (create_synth w1 r.synth e).2.1, init := true },
              true, (create_synth w1 r.synth e).2.2))
       else ({ w1 with init := true }, true, e)) := by
  unfold Initialize
  rw [if_neg (by simp [h])]

theorem Initialize_first (w : World) (r : InitReply) (e : String) (h : w.once = false) :
    (Initialize w r e).1.once = true ∧
      (Initialize w r e).1.instances = w.instances ∧
      ((Initialize w r e).2.1 = true →
        (Initialize w r e).1.init = true ∧ (Initialize w r e).1.global_synth ≠ none) ∧
      ((Initialize w r e).2.1 = false → (Initialize w r e).1.init = w.init) := by
  rw [Initialize_first_eq w r e h]
  dsimp only
  generalize hw1 : (if w.global_settings = none
      then setupSettings { w with once := true } r else { w with once := true }) = w1
  have hf : w1.once = true ∧ w1.instances = w.instances ∧ w1.init = w.init := by
    have hs := setupSettings_fields { w with once := true } r
    subst hw1
    split_ifs
    · exact ⟨hs.2.1, hs.1, hs.2.2.1⟩
    · exact ⟨rfl, rfl, rfl⟩
  have hc := create_synth_fields w1 r.synth e
  by_cases h2 : w1.global_synth = none
  · rw [if_pos h2]
    by_cases h3 : (create_synth w1 r.synth e).2.1 = none
    · rw [if_pos h3]
      simp [hc.1, hc.2.1, hc.2.2.1, hf.1, hf.2.1, hf.2.2]
    · rw [if_neg h3]
      simp [hc.1, hc.2.1, hf.1, hf.2.1, h3]
  · rw [if_neg h2]
    simp [hf.1, hf.2.1, h2]

theorem Initialize_latch (w : World) (r : InitReply) (e : String)
    (h : w.once = false → w.init = false) :
    (Initialize w r e).1.once = true ∧ (Initialize w r e).1.init = (Initialize w r e).2.1 := by
  cases ho : w.once with
  | true =>
    rw [Initialize_again w r e ho]
    exact ⟨ho, rfl⟩
  | false =>
    obtain ⟨h1, -, h3, h4⟩ := Initialize_first w r e ho
    refine ⟨h1, ?_⟩
    cases hb : (Initialize w r e).2.1 with
    | true => exact (h3 hb).1
    | false =>
      rw [h4 hb]
      exact h ho

theorem initializeCalls_latched (w : World) (calls : List (InitReply × String))
    (h : w.once = true) :
    initializeCalls w calls = (w, calls.map (fun _ => w.init)) := by
  induction calls with
  | nil => rfl
  | cons c rest ih =>
    obtain ⟨r, e⟩ := c
    simp only [initializeCalls, Initialize_again w r e h, ih, List.map_cons]

theorem noSharedSynth_index (l : List FluidSynthDecoder) (h : noSharedSynth l)
    (i j : Nat) (di dj : FluidSynthDecoder) (p : Nat) (hij : i ≠ j)
    (hi : l.get? i = some di) (hj : l.get? j = some dj)
    (hp : di.instance_synth = some p) : dj.instance_synth ≠ some p := by
  obtain ⟨hil, hie⟩ := List.get?_eq_some.1 hi
  obtain ⟨hjl, hje⟩ := List.get?_eq_some.1 hj
  have hpw := List.pairwise_iff_get.1 h
  intro hq
  rcases Nat.lt_or_gt_of_ne hij with hlt | hgt
  · rcases hpw ⟨i, hil⟩ ⟨j, hjl⟩ hlt with h1 | h1
    · rw [hie, hp] at h1
      cases h1
    · rw [hie, hje, hp, hq] at h1
      exact h1 rfl
  · rcases hpw ⟨j, hjl⟩ ⟨i, hil⟩ hgt with h1 | h1
    · rw [hje, hq] at h1
      cases h1
    · rw [hie, hje, hp, hq] at h1
      exact h1 rfl

/-! ## Lifecycle theorems -/

/-- C4, as stated, fails: after a successful `Initialize`, construct two
decoders and destroy the first.  One decoder is live, bound to its private
synth, and no live decoder is bound to the primary synth. -/
theorem primary_unbound_after_first_destroyed :
    (Initialize processStart ⟨some 100, some 200, ⟨some 1, 0⟩⟩ "").2.1 = true ∧
    freshRun (afterInitialize ⟨some 100, some 200, ⟨some 1, 0⟩⟩ "")
      [.construct ⟨none, 0⟩, .construct ⟨some 2, 0⟩, .destroy 0] = true ∧
    run (afterInitialize ⟨some 100, some 200, ⟨some 1, 0⟩⟩ "")
        [.construct ⟨none, 0⟩, .construct ⟨some 2, 0⟩, .destroy 0] =
      .ok (finalState (afterInitialize ⟨some 100, some 200, ⟨some 1, 0⟩⟩ "")
        [.construct ⟨none, 0⟩, .construct ⟨some 2, 0⟩, .destroy 0]) ∧
    (finalState (afterInitialize ⟨some 100, some 200, ⟨some 1, 0⟩⟩ "")
        [.construct ⟨none, 0⟩, .construct ⟨some 2, 0⟩, .destroy 0]).live = [⟨some 2⟩] ∧
    primaryCount (finalState (afterInitialize ⟨some 100, some 200, ⟨some 1, 0⟩⟩ "")
        [.construct ⟨none, 0⟩, .construct ⟨some 2, 0⟩, .destroy 0]) = 0 ∧
    ¬ (1 ≤ (finalState (afterInitialize ⟨some 100, some 200, ⟨some 1, 0⟩⟩ "")
          [.construct ⟨none, 0⟩, .construct ⟨some 2, 0⟩, .destroy 0]).live.length →
        primaryCount (finalState (afterInitialize ⟨some 100, some 200, ⟨some 1, 0⟩⟩ "")
          [.construct ⟨none, 0⟩, .construct ⟨some 2, 0⟩, .destroy 0]) = 1) := by
  refine ⟨by decide, by decide, rfl, by decide, by decide, by decide⟩

theorem boundToPrimary_congr (w w1 : World) (d : FluidSynthDecoder)
    (h : w1.global_synth = w.global_synth) : boundToPrimary w1 d = boundToPrimary w d := by
  simp [boundToPrimary, h]

/-- A construction made while a decoder is live, the engine answering as an
allocator, gives a decoder that is not bound to the primary synth. -/
theorem ctor_later_unbound (s : Sys) (r : SynthReply) (hbr : s.w.instances + 1 > 1)
    (hfresh : freshOp s (.construct r) = true) :
    boundToPrimary s.w (FluidSynthDecoder.ctor s.w r).2 = false := by
  obtain ⟨hsyn, -⟩ := ctor_later s.w r hbr
  simp only [boundToPrimary, hsyn, Bool.and_eq_false_imp, decide_eq_true_eq,
    decide_eq_false_iff_not]
  intro hne heq
  split_ifs at hne heq with hf
  · exact hne rfl
  · cases hq : r.syn with
    | none => exact hne hq
    | some q =>
      have hfr : freshPtr s.w r.syn = true := by
        simpa [freshOp, hbr, hf] using hfresh
      rw [hq] at hfr heq
      simp only [freshPtr, Bool.and_eq_true, decide_eq_true_eq] at hfr
      exact hfr.2 heq

/-- One step moves `headBound` the way `oldestIsFirst` moves its flag, and
keeps the younger decoders off the primary synth. -/
theorem track_step (s s1 : Sys) (op : Op) (hinv : Inv s) (hg : s.w.global_synth ≠ none)
    (ht : tailUnbound s) (hfresh : freshOp s op = true) (h : step s op = .ok s1) :
    tailUnbound s1 ∧
      ∀ rest, oldestIsFirst s.live.length (headBound s) (op :: rest) =
        oldestIsFirst s1.live.length (headBound s1) rest := by
  have hc := hinv.count
  rcases step_ok_cases s s1 op hc h with ⟨r, rfl, rfl⟩ | ⟨idx, d, rfl, hget, rfl⟩
  · have hgl := ctor_global_synth s.w r
    cases hl : s.live with
    | nil =>
      have hbr : ¬ s.w.instances + 1 > 1 := by
        rw [hc, hl]
        simp
      have hsyn := ctor_first s.w r hbr
      have hb : boundToPrimary (FluidSynthDecoder.ctor s.w r).1
          (FluidSynthDecoder.ctor s.w r).2 = true := by
        simp [boundToPrimary, hsyn, hgl, hg]
      constructor
      · intro d hd
        simp [hl] at hd
      · intro rest
        simp [oldestIsFirst, headBound, hl, hb]
    | cons a t =>
      have hbr : s.w.instances + 1 > 1 := by
        rw [hc, hl]
        simp
      have hu := ctor_later_unbound s r hbr hfresh
      constructor
      · intro d hd
        rw [boundToPrimary_congr s.w _ d hgl]
        simp only [hl, List.cons_append, List.tail_cons, List.mem_append,
          List.mem_singleton] at hd
        rcases hd with hd | hd
        · exact ht d (by rw [hl]; exact hd)
        · rw [hd]
          exact hu
      · intro rest
        simp [oldestIsFirst, headBound, hl, boundToPrimary_congr s.w _ a hgl]
  · have hgl := dtorWorld_global s.w d
    cases hl : s.live with
    | nil =>
      rw [hl] at hget
      simp at hget
    | cons a t =>
      cases idx with
      | zero =>
        constructor
        · intro b hb
          rw [boundToPrimary_congr s.w _ b hgl]
          simp only [hl, List.eraseIdx_cons_zero] at hb
          exact ht b (by rw [hl]; exact List.mem_of_mem_tail hb)
        · intro rest
          have hhead : headBound ⟨dtorWorld s.w d, (a :: t).eraseIdx 0⟩ = false := by
            simp only [List.eraseIdx_cons_zero, headBound]
            cases ht2 : t with
            | nil => rfl
            | cons b u =>
              simp only
              rw [boundToPrimary_congr s.w _ b hgl]
              exact ht b (by rw [hl, ht2]; exact List.mem_cons_self _ _)
          simp only [oldestIsFirst, if_true, hhead]
          simp
      | succ n =>
        constructor
        · intro b hb
          rw [boundToPrimary_congr s.w _ b hgl]
          simp only [hl, List.eraseIdx_cons_succ, List.tail_cons] at hb
          exact ht b (by rw [hl]; exact (List.eraseIdx_sublist t n).subset hb)
        · intro rest
          have hlt := get?_some_length _ _ _ hget
          rw [hl] at hlt
          have hlen : (t.eraseIdx n).length = t.length - 1 := by
            rw [List.length_eraseIdx, if_pos (by simpa using hlt)]
          simp [oldestIsFirst, headBound, hl, List.eraseIdx_cons_succ,
            boundToPrimary_congr s.w _ a hgl, hlen]
          congr 1
          simp at hlt
          omega

theorem track_run (ops : List Op) (s s1 : Sys) (hinv : Inv s)
    (hg : s.w.global_synth ≠ none) (ht : tailUnbound s)
    (hfresh : freshRun s ops = true) (h : run s ops = .ok s1) :
    tailUnbound s1 ∧ headBound s1 = oldestIsFirst s.live.length (headBound s) ops := by
  induction ops generalizing s with
  | nil =>
    rw [run_nil] at h
    cases h
    exact ⟨ht, rfl⟩
  | cons op rest ih =>
    cases hs : step s op with
    | error e =>
      rw [run_cons_error s op rest e hs] at h
      cases h
    | ok s2 =>
      rw [run_cons_ok s s2 op rest hs] at h
      simp only [freshRun, hs, Bool.and_eq_true] at hfresh
      have hg2 : s2.w.global_synth ≠ none := by
        rw [global_synth_step s s2 op hinv.count hs]
        exact hg
      obtain ⟨ht2, htrack⟩ := track_step s s2 op hinv hg ht hfresh.1 hs
      obtain ⟨ht1, hh1⟩ := ih s2 (Inv_step s s2 op hinv hfresh.1 hs) hg2 ht2 hfresh.2 h
      exact ⟨ht1, by rw [hh1, htrack rest]⟩

theorem primaryCount_of_tailUnbound (s : Sys) (ht : tailUnbound s) :
    primaryCount s = if headBound s = true then 1 else 0 := by
  unfold primaryCount headBound
  cases hl : s.live with
  | nil => simp
  | cons a t =>
    have hnil : t.filter (boundToPrimary s.w) = [] := by
      rw [List.filter_eq_nil_iff]
      intro b hb
      rw [ht b (by rw [hl]; exact hb)]
      simp
    by_cases hp : boundToPrimary s.w a = true
    · rw [List.filter_cons_of_pos hp, hnil]
      simp [hp]
    · rw [List.filter_cons_of_neg hp, hnil]
      simp [hp]

/-- C4, amended: in every state reached after a successful `Initialize` by
constructions and destructions of live decoders (the engine answering as an
allocator), at most one live decoder is bound to the primary synth and every
live decoder is bound to the primary synth, bound to a private synth, or
inert.  Exactly one live decoder is bound to the primary synth when the oldest
live decoder was constructed while no decoder was live, and none is otherwise:
destroying the oldest of several live decoders leaves the primary synth
unbound until a decoder is constructed with none live.  In particular exactly
one of the `N ≥ 1` live decoders is bound to it when no destruction removed
the oldest live decoder. -/
theorem primary_bound_when_oldest_is_first (r0 : InitReply) (e0 : String)
    (ops : List Op) (s : Sys) (hinit : (Initialize processStart r0 e0).2.1 = true)
    (hfresh : freshRun (afterInitialize r0 e0) ops = true)
    (hrun : run (afterInitialize r0 e0) ops = .ok s) :
    primaryCount s ≤ 1 ∧
      (∀ d ∈ s.live,
        boundToPrimary s.w d = true ∨ boundToPrivate s.w d = true ∨ inert d = true) ∧
      primaryCount s = (if oldestIsFirst 0 false ops = true then 1 else 0) ∧
      (oldestIsFirst 0 false ops = true → 1 ≤ s.live.length) ∧
      ((∀ op ∈ ops, op ≠ .destroy 0) → 1 ≤ s.live.length → primaryCount s = 1) := by
  obtain ⟨-, hinst, hsucc, -⟩ := Initialize_first processStart r0 e0 rfl
  have h0 : Inv (afterInitialize r0 e0) := Inv_start _ (by rw [hinst]; rfl)
  have hg : (afterInitialize r0 e0).w.global_synth ≠ none := (hsucc hinit).2
  have hinv := Inv_run ops _ s h0 hfresh hrun
  have hle : primaryCount s ≤ 1 := filter_primary_le_one s.w s.live hinv.distinct
  have ht0 : tailUnbound (afterInitialize r0 e0) := by
    intro d hd
    simp [afterInitialize] at hd
  obtain ⟨ht, hh⟩ := track_run ops _ s h0 hg ht0 hfresh hrun
  have hh' : headBound s = oldestIsFirst 0 false ops := by
    rw [hh]
    rfl
  refine ⟨hle, fun d hd => Inv_classify s hinv d hd, ?_, ?_, ?_⟩
  · rw [primaryCount_of_tailUnbound s ht, hh']
  · intro ho
    rw [← hh'] at ho
    unfold headBound at ho
    cases hl : s.live with
    | nil =>
      rw [hl] at ho
      cases ho
    | cons a t => simp
  · intro hops hlen
    have hh0 : headPrimary (afterInitialize r0 e0) := by
      intro d hd
      simp [afterInitialize] at hd
    have hhp := headPrimary_run ops _ s h0 hg hh0 hops hfresh hrun
    have := headPrimary_count s hhp hlen
    omega

theorem primary_bound_when_oldest_is_first_witness :
    (Initialize processStart ⟨some 100, some 200, ⟨some 1, 0⟩⟩ "").2.1 = true ∧
    freshRun (afterInitialize ⟨some 100, some 200, ⟨some 1, 0⟩⟩ "")
      [.construct ⟨none, 0⟩, .destroy 0, .construct ⟨none, 0⟩, .construct ⟨some 2, 0⟩]
        = true ∧
    primaryCount (finalState (afterInitialize ⟨some 100, some 200, ⟨some 1, 0⟩⟩ "")
      [.construct ⟨none, 0⟩, .destroy 0, .construct ⟨none, 0⟩, .construct ⟨some 2, 0⟩])
        = 1 :=
  ⟨by decide, by decide,
    (primary_bound_when_oldest_is_first ⟨some 100, some 200, ⟨some 1, 0⟩⟩ ""
      [.construct ⟨none, 0⟩, .destroy 0, .construct ⟨none, 0⟩, .construct ⟨some 2, 0⟩]
      (finalState (afterInitialize ⟨some 100, some 200, ⟨some 1, 0⟩⟩ "")
        [.construct ⟨none, 0⟩, .destroy 0, .construct ⟨none, 0⟩, .construct ⟨some 2, 0⟩])
      (by decide) (by decide) (by rfl)).2.2.1.trans (by decide)⟩

/-- C5: in every state reached from an empty decoder set by constructions and
destructions of live decoders, provided each successful private-synth creation
returns a synth distinct from the primary synth and from every live synth, no
two live decoders are bound to the same synth: at most one is bound to the
primary synth, and every other decoder with a binding is bound to a live
synth, not the primary one, that no other live decoder has. -/
theorem no_two_decoders_share_a_synth (w0 : World) (ops : List Op) (s : Sys)
    (h0 : w0.instances = 0)
    (hfresh : freshRun ⟨w0, []⟩ ops = true)
    (hrun : run ⟨w0, []⟩ ops = .ok s) :
    (∀ i j di dj p, i ≠ j → s.live.get? i = some di → s.live.get? j = some dj →
        di.instance_synth = some p → dj.instance_synth ≠ some p) ∧
      primaryCount s ≤ 1 ∧
      (∀ d ∈ s.live, d.instance_synth ≠ none → boundToPrimary s.w d = false →
        boundToPrivate s.w d = true) := by
  have hinv := Inv_run ops _ s (Inv_start w0 h0) hfresh hrun
  refine ⟨?_, filter_primary_le_one s.w s.live hinv.distinct, ?_⟩
  · intro i j di dj p hij hi hj hp
    exact noSharedSynth_index s.live hinv.distinct i j di dj p hij hi hj hp
  · intro d hd hne hnp
    rcases Inv_classify s hinv d hd with h1 | h1 | h1
    · rw [h1] at hnp
      cases hnp
    · exact h1
    · simp only [inert, decide_eq_true_eq] at h1
      exact absurd h1 hne

theorem no_two_decoders_share_a_synth_witness :
    processStart.instances = 0 ∧
    freshRun ⟨processStart, []⟩
      [.construct ⟨none, 0⟩, .construct ⟨some 2, 0⟩, .construct ⟨some 3, 0⟩, .destroy 1,
        .construct ⟨some 2, 0⟩] = true ∧
    primaryCount (finalState ⟨processStart, []⟩
      [.construct ⟨none, 0⟩, .construct ⟨some 2, 0⟩, .construct ⟨some 3, 0⟩, .destroy 1,
        .construct ⟨some 2, 0⟩]) ≤ 1 :=
  ⟨rfl, by decide,
    (no_two_decoders_share_a_synth processStart
      [.construct ⟨none, 0⟩, .construct ⟨some 2, 0⟩, .construct ⟨some 3, 0⟩, .destroy 1,
        .construct ⟨some 2, 0⟩]
      (finalState ⟨processStart, []⟩
        [.construct ⟨none, 0⟩, .construct ⟨some 2, 0⟩, .construct ⟨some 3, 0⟩, .destroy 1,
          .construct ⟨some 2, 0⟩])
      rfl (by decide) (by rfl)).2.1⟩

theorem legalOps_take (ops : List Op) (n k : Nat) (h : legalOps n ops = true) :
    legalOps n (ops.take k) = true := by
  induction ops generalizing n k with
  | nil => simp [legalOps]
  | cons op rest ih =>
    cases k with
    | zero => simp [legalOps]
    | succ k =>
      cases op with
      | construct r =>
        simp only [List.take_succ_cons, legalOps] at h ⊢
        exact ih _ _ h
      | destroy idx =>
        simp only [List.take_succ_cons, legalOps, Bool.and_eq_true] at h ⊢
        exact ⟨h.1, ih _ _ h.2⟩

/-- A legal sequence runs to the end, and the counter stays the number of live
decoders. -/
theorem run_legal (ops : List Op) (s : Sys) (hc : s.w.instances = s.live.length)
    (hl : legalOps s.live.length ops = true) :
    ∃ s1, run s ops = .ok s1 ∧ s1.w.instances = s1.live.length := by
  induction ops generalizing s with
  | nil => exact ⟨s, rfl, hc⟩
  | cons op rest ih =>
    cases op with
    | construct r =>
      simp only [legalOps] at hl
      rw [run_cons_ok s _ _ rest (step_construct s r)]
      apply ih
      · simp only [ctor_instances, hc, List.length_append, List.length_singleton]
        push_cast
        rfl
      · simpa using hl
    | destroy idx =>
      simp only [legalOps, Bool.and_eq_true, decide_eq_true_eq] at hl
      obtain ⟨hlt, hrest⟩ := hl
      have hg : s.live.get? idx = some (s.live.get ⟨idx, hlt⟩) := List.get?_eq_get hlt
      have h1 : 1 ≤ s.w.instances := by omega
      rw [run_cons_ok s _ _ rest (step_destroy s idx _ hg h1)]
      have hlen : (s.live.eraseIdx idx).length = s.live.length - 1 := by
        rw [List.length_eraseIdx, if_pos hlt]
      apply ih
      · simp only [dtorWorld_instances, hc, hlen]
        omega
      · simpa [hlen] using hrest

/-- C8: starting from a counter of 0, along every sequence of constructions
and destructions in which each destruction names a live decoder, the run never
stops (the destructor's `assert(instances >= 0)` never fails) and after every
prefix the counter equals the number of live decoders, hence is `≥ 0`; every
construction, whatever the engine answers, adds exactly 1 and every
destruction subtracts exactly 1. -/
theorem instances_counts_live_decoders (w0 : World) (ops : List Op)
    (h0 : w0.instances = 0) (hlegal : legalOps 0 ops = true) :
    (∀ k, ∃ s, run ⟨w0, []⟩ (ops.take k) = .ok s ∧
        s.w.instances = s.live.length ∧ 0 ≤ s.w.instances) ∧
      (∀ (w : World) (r : SynthReply),
        (FluidSynthDecoder.ctor w r).1.instances = w.instances + 1) ∧
      (∀ (w : World) (d : FluidSynthDecoder), 1 ≤ w.instances →
        ∃ w1, FluidSynthDecoder.dtor w d = .ok w1 ∧ w1.instances = w.instances - 1) := by
  refine ⟨?_, ctor_instances, ?_⟩
  · intro k
    obtain ⟨s, hs, hcount⟩ := run_legal (ops.take k) ⟨w0, []⟩ (by simp [h0])
      (legalOps_take ops 0 k hlegal)
    exact ⟨s, hs, hcount, by omega⟩
  · intro w d h
    exact ⟨dtorWorld w d, dtor_ok w d h, dtorWorld_instances w d⟩

theorem instances_counts_live_decoders_witness :
    processStart.instances = 0 ∧
    legalOps 0 [.construct ⟨none, 0⟩, .construct ⟨some 2, -1⟩, .destroy 0, .destroy 0]
      = true ∧
    ∃ s, run ⟨processStart, []⟩
        (([.construct ⟨none, 0⟩, .construct ⟨some 2, -1⟩, .destroy 0, .destroy 0] :
          List Op).take 4) = .ok s ∧
      s.w.instances = s.live.length ∧ 0 ≤ s.w.instances :=
  ⟨rfl, by decide,
    (instances_counts_live_decoders processStart
      [.construct ⟨none, 0⟩, .construct ⟨some 2, -1⟩, .destroy 0, .destroy 0]
      rfl (by decide)).1 4⟩

/-- C9: a destructor call (on a decoder counted by `instances`) never destroys
the primary synth, whatever the decoder is bound to: the only engine call it
can make is `delete_fluid_synth` on its own `instance_synth`, and only when
that differs from `global_synth`.  When the decoder is bound to a private
synth, the live synths afterwards are the previous ones minus exactly that
synth; when it is bound to the primary synth or inert they are unchanged. -/
theorem dtor_releases_only_its_private_synth (w : World) (self : FluidSynthDecoder)
    (h : 1 ≤ w.instances) :
    ∃ w1, FluidSynthDecoder.dtor w self = .ok w1 ∧
      w1.global_synth = w.global_synth ∧
      (∀ g, w.global_synth = some g → (g ∈ w1.alive ↔ g ∈ w.alive)) ∧
      w1.trace = w.trace ++
        (if self.instance_synth ≠ w.global_synth
          then [.delete_fluid_synth self.instance_synth] else []) ∧
      (∀ p, self.instance_synth = some p → self.instance_synth ≠ w.global_synth →
        ∀ x, x ∈ w1.alive ↔ x ∈ w.alive ∧ x ≠ p) ∧
      (self.instance_synth = w.global_synth ∨ self.instance_synth = none →
        w1.alive = w.alive) := by
  refine ⟨dtorWorld w self, dtor_ok w self h, dtorWorld_global w self, ?_, ?_, ?_, ?_⟩
  · intro g hg
    rw [mem_dtorWorld_alive]
    constructor
    · exact fun hx => hx.1
    · intro hx
      refine ⟨hx, fun hne heq => hne ?_⟩
      rw [heq, hg]
  · unfold dtorWorld
    split_ifs
    · cases self.instance_synth <;> simp [World.delete_fluid_synth, World.call]
    · simp
  · intro p hp hne x
    rw [mem_dtorWorld_alive]
    constructor
    · rintro ⟨h1, h2⟩
      refine ⟨h1, fun hxp => h2 hne ?_⟩
      rw [hp, hxp]
    · rintro ⟨h1, h2⟩
      refine ⟨h1, fun _ heq => h2 ?_⟩
      rw [hp] at heq
      exact (Option.some.inj heq).symm
  · intro hcase
    unfold dtorWorld
    split_ifs with hne
    · rcases hcase with h1 | h1
      · exact absurd h1 hne
      · rw [h1]
        rfl
    · rfl

theorem dtor_releases_only_its_private_synth_witness :
    (1 : Int) ≤ (finalState ⟨processStart, []⟩
        [.construct ⟨none, 0⟩, .construct ⟨some 2, 0⟩]).w.instances ∧
    ∃ w1, FluidSynthDecoder.dtor
        (finalState ⟨processStart, []⟩ [.construct ⟨none, 0⟩, .construct ⟨some 2, 0⟩]).w
        ⟨some 2⟩ = .ok w1 ∧ w1.alive = [] :=
  ⟨by decide, by
    obtain ⟨w1, h1, -, -, -, h2, -⟩ := dtor_releases_only_its_private_synth
      (finalState ⟨processStart, []⟩ [.construct ⟨none, 0⟩, .construct ⟨some 2, 0⟩]).w
      ⟨some 2⟩ (by decide)
    refine ⟨w1, h1, ?_⟩
    have h3 := h2 2 rfl (by decide)
    apply List.eq_nil_iff_forall_not_mem.2
    intro x hx
    have h4 := (h3 x).1 hx
    have h5 : (finalState ⟨processStart, []⟩
        [.construct ⟨none, 0⟩, .construct ⟨some 2, 0⟩]).w.alive = [2] := by decide
    rw [h5] at h4
    simp at h4⟩

/-! ## `FillBuffer` -/

/-- C6: for every `length ≥ 0`, `FillBuffer` returns `-1` without calling the
engine when the decoder has no bound synth; otherwise it asks the engine for
`length / 4` frames (integer division) and returns exactly `length` when the
engine does not report failure and `-1` when it does; no other value is
returned.  In particular `FillBuffer(buffer, 8)` on a bound decoder requests 2
frames and returns 8. -/
theorem FillBuffer_length_or_error (w : World) (self : FluidSynthDecoder)
    (length write_ret : Int) (hlen : 0 ≤ length) :
    (self.instance_synth = none → FillBuffer w self length write_ret = (w, -1)) ∧
      (self.instance_synth ≠ none → write_ret ≠ FLUID_FAILED →
        FillBuffer w self length write_ret =
          (w.call (.fluid_synth_write_s16 self.instance_synth (length / 4) 0 2 1 2),
            length)) ∧
      (self.instance_synth ≠ none → write_ret = FLUID_FAILED →
        FillBuffer w self length write_ret =
          (w.call (.fluid_synth_write_s16 self.instance_synth (length / 4) 0 2 1 2),
            -1)) ∧
      ((FillBuffer w self length write_ret).2 = length ∨
        (FillBuffer w self length write_ret).2 = -1) ∧
      (∀ syn : Nat, write_ret ≠ FLUID_FAILED →
        FillBuffer w ⟨some syn⟩ 8 write_ret =
          (w.call (.fluid_synth_write_s16 (some syn) 2 0 2 1 2), 8)) := by
  have hdiv : Int.tdiv length 4 = length / 4 := Int.tdiv_eq_ediv hlen (by norm_num)
  refine ⟨?_, ?_, ?_, ?_, ?_⟩
  · intro h
    simp [FillBuffer, h]
  · intro h hw
    simp [FillBuffer, h, hw, hdiv]
  · intro h hw
    simp [FillBuffer, h, hw, hdiv]
  · unfold FillBuffer
    split_ifs <;> simp
  · intro syn hw
    simp [FillBuffer, hw]
    rfl

theorem FillBuffer_length_or_error_witness :
    (0 : Int) ≤ 8 ∧
    FillBuffer processStart ⟨some 1⟩ 8 0 =
      (processStart.call (.fluid_synth_write_s16 (some 1) 2 0 2 1 2), 8) ∧
    FillBuffer processStart ⟨none⟩ 8 0 = (processStart, -1) :=
  ⟨by decide,
    (FillBuffer_length_or_error processStart ⟨some 1⟩ 8 0 (by decide)).2.2.2.2 1 (by decide),
    (FillBuffer_length_or_error processStart ⟨none⟩ 8 0 (by decide)).1 rfl⟩

/-! ## `Initialize` is latched -/

/-- C7: whatever a call of `Initialize` returns, success or failure, every
later call returns the same result and leaves the whole world as it was: the
globals, the live synths and the trace of engine calls, so no settings
creation, no synth creation and no soundfont load happen again; the caller's
`error_message` is left as passed in.  The first call is made with the
statics in a state where `init` is not set unless `once` is. -/
theorem Initialize_idempotent (w : World) (r1 : InitReply) (e1 : String)
    (h : w.once = false → w.init = false) :
    (∀ (r2 : InitReply) (e2 : String),
        Initialize (Initialize w r1 e1).1 r2 e2 =
          ((Initialize w r1 e1).1, (Initialize w r1 e1).2.1, e2)) ∧
      (∀ calls : List (InitReply × String),
        initializeCalls (Initialize w r1 e1).1 calls =
          ((Initialize w r1 e1).1, calls.map (fun _ => (Initialize w r1 e1).2.1))) := by
  obtain ⟨honce, hinit⟩ := Initialize_latch w r1 e1 h
  constructor
  · intro r2 e2
    rw [Initialize_again _ r2 e2 honce, hinit]
  · intro calls
    rw [initializeCalls_latched _ calls honce, hinit]

theorem Initialize_idempotent_witness :
    (processStart.once = false → processStart.init = false) ∧
    (Initialize processStart ⟨some 100, some 200, ⟨some 1, -1⟩⟩ "").2.1 = false ∧
    initializeCalls (Initialize processStart ⟨some 100, some 200, ⟨some 1, -1⟩⟩ "").1
        [(⟨some 101, some 201, ⟨some 2, 0⟩⟩, ""), (⟨some 102, some 202, ⟨some 3, 0⟩⟩, "")] =
      ((Initialize processStart ⟨some 100, some 200, ⟨some 1, -1⟩⟩ "").1, [false, false]) :=
  ⟨fun _ => rfl, by decide, by
    rw [(Initialize_idempotent processStart ⟨some 100, some 200, ⟨some 1, -1⟩⟩ ""
      (fun _ => rfl)).2]
    rfl⟩

/-! ## Stream bridge -/

/-- C10, as stated, fails: with a provider that cannot open the resource,
`vio_open` still returns a non-null handle. -/
theorem vio_open_non_null_on_provider_failure :
    (failingProvider "easyrpg.soundfont").ok = false ∧
      (vio_open failingProvider [] "easyrpg.soundfont").2 ≠ none := by
  decide

/-- C10, amended: `vio_open` always returns a non-null handle, the address of a
newly allocated object holding the stream the provider returned, whether or
not the provider opened the resource; a provider failure is visible only as
the failed state of the stream behind the handle. -/
theorem vio_open_always_returns_handle (OpenInputStream : String → InputStream)
    (heap : StreamHeap) (filename : String) :
    (vio_open OpenInputStream heap filename).2 ≠ none ∧
      (vio_open OpenInputStream heap filename).2 = some heap.length ∧
      (vio_open OpenInputStream heap filename).1.get? heap.length =
        some (some (OpenInputStream filename)) ∧
      (∀ i, i < heap.length →
        (vio_open OpenInputStream heap filename).1.get? i = heap.get? i) := by
  refine ⟨by simp [vio_open], rfl, by simp [vio_open], ?_⟩
  intro i hi
  simp [vio_open, List.getElem?_append_left hi]

/-! ## Messages that are ignored, and reset -/

/-- C11: on a decoder bound to a synth, a message whose status high nibble is
0x0 to 0x7 (not an event type) makes `OnMidiMessage` issue no engine call and
leave the whole world unchanged; the function returns normally, it has no
error result. -/
theorem OnMidiMessage_unrecognized_ignored (w : World) (syn message : Nat)
    (h : highNibble (byteOf message 0) ≤ 0x7) :
    OnMidiMessage w ⟨some syn⟩ message = w := by
  rw [OnMidiMessage_bound]
  dsimp only
  generalize highNibble (byteOf message 0) = q at h ⊢
  interval_cases q <;> simp

theorem OnMidiMessage_unrecognized_ignored_witness :
    highNibble (byteOf 0x7F3C0F 0) ≤ 0x7 ∧
      OnMidiMessage processStart ⟨some 1⟩ 0x7F3C0F = processStart :=
  ⟨by decide, OnMidiMessage_unrecognized_ignored processStart 1 0x7F3C0F (by decide)⟩

/-- C12: `OnMidiReset` on a decoder bound to a synth issues exactly one
`system_reset` on that synth and changes nothing else; on a decoder with no
bound synth, `OnMidiReset` and `OnMidiMessage`, for every message, issue no
engine call and leave the world unchanged. -/
theorem OnMidiReset_and_unbound_dispatch (w : World) :
    (∀ syn : Nat,
        OnMidiReset w ⟨some syn⟩ = w.call (.fluid_synth_system_reset (some syn)) ∧
        (OnMidiReset w ⟨some syn⟩).trace =
          w.trace ++ [.fluid_synth_system_reset (some syn)]) ∧
      OnMidiReset w ⟨none⟩ = w ∧
      (∀ message : Nat, OnMidiMessage w ⟨none⟩ message = w) := by
  refine ⟨fun syn => ⟨by simp [OnMidiReset], by simp [OnMidiReset, World.call]⟩, ?_, ?_⟩
  · simp [OnMidiReset]
  · intro message
    simp [OnMidiMessage]

theorem bitField_status (m : Nat) : bitField m 0 8 = byteOf m 0 := by
  simp [bitField, byteOf]

theorem bitField_data1 (m : Nat) : bitField m 8 7 = mask7 (byteOf m 1) := by
  simp only [bitField, byteOf, mask7]
  omega

theorem bitField_data2 (m : Nat) : bitField m 16 7 = mask7 (byteOf m 2) := by
  simp only [bitField, byteOf, mask7]
  omega

theorem lowNibble_le (b : Nat) : lowNibble b ≤ 15 := by
  unfold lowNibble
  omega

theorem mask7_le (b : Nat) : mask7 b ≤ 127 := by
  unfold mask7
  omega

theorem pitchBendValue_le (m : Nat) :
    pitchBendValue (mask7 (byteOf m 1)) (mask7 (byteOf m 2)) ≤ 0x3FFF := by
  have h1 := mask7_lt (byteOf m 1)
  have h2 := mask7_lt (byteOf m 2)
  rw [pitchBendValue_eq _ _ h1 h2]
  omega

/-- What `OnMidiMessage` appends to the trace on a bound decoder is empty or a
single call whose arguments are in range. -/
theorem OnMidiMessage_bound_calls (w : World) (syn message : Nat) :
    ∃ cs : List EngineCall, (OnMidiMessage w ⟨some syn⟩ message).trace = w.trace ++ cs ∧
      cs.length ≤ 1 ∧ ∀ c ∈ cs, argsInRange c ∧ c.synth = some syn := by
  rw [OnMidiMessage_bound]
  dsimp only
  have hc := lowNibble_le (byteOf message 0)
  have h1 := mask7_le (byteOf message 1)
  have h2 := mask7_le (byteOf message 2)
  have hp := pitchBendValue_le message
  split_ifs
  · exact ⟨[_], rfl, by simp, by simp [argsInRange, EngineCall.synth, hc, h1]⟩
  · exact ⟨[_], rfl, by simp, by simp [argsInRange, EngineCall.synth, hc, h1, h2]⟩
  · exact ⟨[_], rfl, by simp, by simp [argsInRange, EngineCall.synth, h1, h2]⟩
  · exact ⟨[_], rfl, by simp, by simp [argsInRange, EngineCall.synth, hc, h1, h2]⟩
  · exact ⟨[_], rfl, by simp, by simp [argsInRange, EngineCall.synth, hc, h1]⟩
  · exact ⟨[_], rfl, by simp, by simp [argsInRange, EngineCall.synth, hc, h1]⟩
  · exact ⟨[_], rfl, by simp, by simp [argsInRange, EngineCall.synth, hc, hp]⟩
  · exact ⟨[_], rfl, by simp, by simp [argsInRange, EngineCall.synth]⟩
  · exact ⟨[], by simp, by simp, by simp⟩

/-- C17: `OnMidiMessage` reads only bits 0-7, 8-14 and 16-22 of the message:
two messages that agree on these bits give, on the same decoder and world, the
same result, hence the same engine call with the same arguments.  Every call
issued on a bound decoder has its low-nibble channel argument in `0..15` and
its data arguments in `0..127`. -/
theorem OnMidiMessage_reads_masked_bits (w : World) (self : FluidSynthDecoder)
    (m1 m2 : Nat) (h0 : bitField m1 0 8 = bitField m2 0 8)
    (h1 : bitField m1 8 7 = bitField m2 8 7) (h2 : bitField m1 16 7 = bitField m2 16 7) :
    OnMidiMessage w self m1 = OnMidiMessage w self m2 ∧
      (∀ syn : Nat, self.instance_synth = some syn →
        ∀ c ∈ callsSince (OnMidiMessage w self m1) w.trace.length, argsInRange c) := by
  rw [bitField_status, bitField_status] at h0
  rw [bitField_data1, bitField_data1] at h1
  rw [bitField_data2, bitField_data2] at h2
  obtain ⟨p⟩ := self
  cases p with
  | none => simp [OnMidiMessage]
  | some syn =>
    constructor
    · rw [OnMidiMessage_bound, OnMidiMessage_bound]
      simp only [h0, h1, h2]
    · intro syn1 _ c hc
      obtain ⟨cs, htr, -, hcs⟩ := OnMidiMessage_bound_calls w syn m1
      rw [callsSince, htr, List.drop_left] at hc
      exact (hcs c hc).1

theorem OnMidiMessage_reads_masked_bits_witness :
    bitField 0x7F3C91 0 8 = bitField 0xAAFFBC91 0 8 ∧
    bitField 0x7F3C91 8 7 = bitField 0xAAFFBC91 8 7 ∧
    bitField 0x7F3C91 16 7 = bitField 0xAAFFBC91 16 7 ∧
    OnMidiMessage processStart ⟨some 1⟩ 0x7F3C91 =
      OnMidiMessage processStart ⟨some 1⟩ 0xAAFFBC91 :=
  ⟨by decide, by decide, by decide,
    (OnMidiMessage_reads_masked_bits processStart ⟨some 1⟩ 0x7F3C91 0xAAFFBC91
      (by decide) (by decide) (by decide)).1⟩

/-! ## Construction, case by case -/

theorem count_run (ops : List Op) (s s1 : Sys) (hc : s.w.instances = s.live.length)
    (h : run s ops = .ok s1) : s1.w.instances = s1.live.length := by
  induction ops generalizing s with
  | nil =>
    rw [run_nil] at h
    cases h
    exact hc
  | cons op rest ih =>
    cases hs : step s op with
    | error e =>
      rw [run_cons_error s op rest e hs] at h
      cases h
    | ok s2 =>
      rw [run_cons_ok s s2 op rest hs] at h
      refine ih s2 ?_ h
      rcases step_ok_cases s s2 op hc hs with ⟨r, -, rfl⟩ | ⟨idx, d, -, hg, rfl⟩
      · simp only [ctor_instances, hc, List.length_append, List.length_singleton]
        push_cast
        rfl
      · have hlt := get?_some_length _ _ _ hg
        have hlen : (s.live.eraseIdx idx).length = s.live.length - 1 := by
          rw [List.length_eraseIdx, if_pos hlt]
        simp only [dtorWorld_instances, hc, hlen]
        omega

/-- The first-instance branch in full: one `program_reset` on `global_synth`,
the counter incremented, nothing else. -/
theorem ctor_first_world (w : World) (r : SynthReply) (h : ¬ w.instances + 1 > 1) :
    (FluidSynthDecoder.ctor w r).1 =
      ({ w with instances := w.instances + 1 } : World).call
        (.fluid_synth_program_reset w.global_synth) := by
  unfold FluidSynthDecoder.ctor
  dsimp only
  rw [if_neg h]

/-- The calls of the other branch: those of `create_synth`, all on the synth
just created. -/
theorem ctor_later_trace (w : World) (r : SynthReply) (h : w.instances + 1 > 1) :
    (FluidSynthDecoder.ctor w r).1.trace =
      w.trace ++
        ([.new_fluid_synth w.global_settings,
          .fluid_synth_add_sfloader r.syn w.global_loader,
          .fluid_synth_sfload r.syn "easyrpg.soundfont" 1] ++
        (if r.sfload = FLUID_FAILED then []
          else [.fluid_synth_set_interp_method r.syn (-1) FLUID_INTERP_LINEAR])) := by
  unfold FluidSynthDecoder.ctor create_synth
  dsimp only
  rw [if_pos h]
  split_ifs <;> cases r.syn <;> simp_all [World.call, World.created]

theorem ctor_later_debug (w : World) (r : SynthReply) (h : w.instances + 1 > 1)
    (hf : r.sfload = FLUID_FAILED) :
    (FluidSynthDecoder.ctor w r).1.debug =
      w.debug ++ ["FluidSynth failed: Could not load soundfont."] := by
  unfold FluidSynthDecoder.ctor create_synth
  dsimp only
  rw [if_pos h]
  cases r.syn <;> simp [hf, World.call, World.created]

/-- C13: in a state reached from an empty decoder set with counter 0,
constructing a decoder when no decoder is live binds it to `global_synth` and
issues exactly one engine call, `program_reset` on the primary synth;
constructing one when a decoder is live (the engine returning a new synth, not
the primary one) does not bind it to the primary synth and issues no call on
the primary synth. -/
theorem ctor_binding_by_live_count (w0 : World) (ops : List Op) (s : Sys) (r : SynthReply)
    (h0 : w0.instances = 0) (hrun : run ⟨w0, []⟩ ops = .ok s)
    (hnew : ∀ g, s.w.global_synth = some g → r.syn ≠ some g) :
    (s.live = [] →
        (FluidSynthDecoder.ctor s.w r).2.instance_synth = s.w.global_synth ∧
        (FluidSynthDecoder.ctor s.w r).1.trace =
          s.w.trace ++ [.fluid_synth_program_reset s.w.global_synth] ∧
        (s.w.global_synth ≠ none →
          boundToPrimary (FluidSynthDecoder.ctor s.w r).1 (FluidSynthDecoder.ctor s.w r).2
            = true)) ∧
      (s.live ≠ [] →
        boundToPrimary (FluidSynthDecoder.ctor s.w r).1 (FluidSynthDecoder.ctor s.w r).2
            = false ∧
        ∀ c ∈ callsSince (FluidSynthDecoder.ctor s.w r).1 s.w.trace.length,
          ∀ g, s.w.global_synth = some g → c.synth ≠ some g) := by
  have hc : s.w.instances = s.live.length := count_run ops _ s (by simp [h0]) hrun
  constructor
  · intro hl
    have hbr : ¬ s.w.instances + 1 > 1 := by
      rw [hc, hl]
      simp
    have hsyn := ctor_first s.w r hbr
    refine ⟨hsyn, ?_, ?_⟩
    · rw [ctor_first_world s.w r hbr]
      rfl
    · intro hg
      simp [boundToPrimary, hsyn, ctor_global_synth, hg]
  · intro hl
    have hpos : 0 < s.live.length := List.length_pos.2 hl
    have hbr : s.w.instances + 1 > 1 := by omega
    obtain ⟨hsyn, -⟩ := ctor_later s.w r hbr
    constructor
    · simp only [boundToPrimary, hsyn, ctor_global_synth, Bool.and_eq_false_imp,
        decide_eq_true_eq, decide_eq_false_iff_not]
      intro hne heq
      split_ifs at hne heq with hf
      · exact hne rfl
      · cases hq : r.syn with
        | none => exact hne hq
        | some q =>
          rw [hq] at heq
          exact hnew q heq.symm hq
    · intro c hcm g hg
      rw [callsSince, ctor_later_trace s.w r hbr, List.drop_left] at hcm
      have hr : r.syn ≠ some g := hnew g hg
      simp only [List.mem_append, List.mem_cons, List.mem_singleton, List.not_mem_nil,
        or_false] at hcm
      rcases hcm with (h1 | h1 | h1) | h1
      · rw [h1]
        simp [EngineCall.synth]
      · rw [h1]
        exact hr
      · rw [h1]
        exact hr
      · split_ifs at h1 with hf
        · simp at h1
        · rw [List.mem_singleton] at h1
          rw [h1]
          exact hr

theorem ctor_binding_by_live_count_witness :
    (Initialize processStart ⟨some 100, some 200, ⟨some 1, 0⟩⟩ "").1.instances = 0 ∧
    (finalState ⟨(Initialize processStart ⟨some 100, some 200, ⟨some 1, 0⟩⟩ "").1, []⟩
      [.construct ⟨none, 0⟩]).live ≠ [] ∧
    boundToPrimary
      (FluidSynthDecoder.ctor
        (finalState ⟨(Initialize processStart ⟨some 100, some 200, ⟨some 1, 0⟩⟩ "").1, []⟩
          [.construct ⟨none, 0⟩]).w ⟨some 2, 0⟩).1
      (FluidSynthDecoder.ctor
        (finalState ⟨(Initialize processStart ⟨some 100, some 200, ⟨some 1, 0⟩⟩ "").1, []⟩
          [.construct ⟨none, 0⟩]).w ⟨some 2, 0⟩).2 = false :=
  ⟨by decide, by decide,
    ((ctor_binding_by_live_count
      (Initialize processStart ⟨some 100, some 200, ⟨some 1, 0⟩⟩ "").1
      [.construct ⟨none, 0⟩]
      (finalState ⟨(Initialize processStart ⟨some 100, some 200, ⟨some 1, 0⟩⟩ "").1, []⟩
        [.construct ⟨none, 0⟩])
      ⟨some 2, 0⟩ (by decide) (by rfl) (by decide)).2 (by decide)).1⟩

/-- C14: in a state reached from an empty decoder set with counter 0 in which a
decoder is live, a construction whose soundfont load fails still completes:
the new decoder is bound to nothing and the failure goes to the debug log.  In
every later world `FillBuffer` on it returns `-1`, `OnMidiMessage` and
`OnMidiReset` on it issue no engine call and change nothing, and destroying it
leaves every live synth, the primary one included, alive. -/
theorem failed_load_gives_inert_decoder (w0 : World) (ops : List Op) (s : Sys)
    (r : SynthReply) (h0 : w0.instances = 0) (hrun : run ⟨w0, []⟩ ops = .ok s)
    (hlive : s.live ≠ []) (hfail : r.sfload = FLUID_FAILED) :
    step s (.construct r) =
        .ok ⟨(FluidSynthDecoder.ctor s.w r).1,
          s.live ++ [(FluidSynthDecoder.ctor s.w r).2]⟩ ∧
      (FluidSynthDecoder.ctor s.w r).2.instance_synth = none ∧
      (FluidSynthDecoder.ctor s.w r).1.debug =
        s.w.debug ++ ["FluidSynth failed: Could not load soundfont."] ∧
      (∀ (w1 : World) (length write_ret : Int),
        FillBuffer w1 (FluidSynthDecoder.ctor s.w r).2 length write_ret = (w1, -1)) ∧
      (∀ (w1 : World) (message : Nat),
        OnMidiMessage w1 (FluidSynthDecoder.ctor s.w r).2 message = w1) ∧
      (∀ w1 : World, OnMidiReset w1 (FluidSynthDecoder.ctor s.w r).2 = w1) ∧
      (∀ w1 : World, 1 ≤ w1.instances →
        ∃ w2, FluidSynthDecoder.dtor w1 (FluidSynthDecoder.ctor s.w r).2 = .ok w2 ∧
          w2.alive = w1.alive ∧ w2.global_synth = w1.global_synth) := by
  have hc : s.w.instances = s.live.length := count_run ops _ s (by simp [h0]) hrun
  have hpos : 0 < s.live.length := List.length_pos.2 hlive
  have hbr : s.w.instances + 1 > 1 := by omega
  have hsyn : (FluidSynthDecoder.ctor s.w r).2.instance_synth = none := by
    rw [(ctor_later s.w r hbr).1, if_pos hfail]
  refine ⟨step_construct s r, hsyn, ctor_later_debug s.w r hbr hfail, ?_, ?_, ?_, ?_⟩
  · intro w1 length write_ret
    simp [FillBuffer, hsyn]
  · intro w1 message
    simp [OnMidiMessage, hsyn]
  · intro w1
    simp [OnMidiReset, hsyn]
  · intro w1 h1
    refine ⟨dtorWorld w1 _, dtor_ok w1 _ h1, ?_, dtorWorld_global w1 _⟩
    unfold dtorWorld
    rw [hsyn]
    split_ifs
    · rfl
    · rfl

theorem failed_load_gives_inert_decoder_witness :
    (Initialize processStart ⟨some 100, some 200, ⟨some 1, 0⟩⟩ "").1.instances = 0 ∧
    (finalState ⟨(Initialize processStart ⟨some 100, some 200, ⟨some 1, 0⟩⟩ "").1, []⟩
      [.construct ⟨none, 0⟩]).live ≠ [] ∧
    (FluidSynthDecoder.ctor
      (finalState ⟨(Initialize processStart ⟨some 100, some 200, ⟨some 1, 0⟩⟩ "").1, []⟩
        [.construct ⟨none, 0⟩]).w ⟨some 2, FLUID_FAILED⟩).2.instance_synth = none :=
  ⟨by decide, by decide,
    (failed_load_gives_inert_decoder
      (Initialize processStart ⟨some 100, some 200, ⟨some 1, 0⟩⟩ "").1
      [.construct ⟨none, 0⟩]
      (finalState ⟨(Initialize processStart ⟨some 100, some 200, ⟨some 1, 0⟩⟩ "").1, []⟩
        [.construct ⟨none, 0⟩])
      ⟨some 2, FLUID_FAILED⟩ (by decide) (by rfl) (by decide) rfl).2.1⟩

/-! ## The error message of `Initialize` -/

/-- C15, as stated, fails: after a first call that failed, a later call made
with an empty `error_message` returns failure and leaves the message empty. -/
theorem Initialize_later_failure_leaves_message_empty :
    (Initialize processStart ⟨some 100, some 200, ⟨some 1, FLUID_FAILED⟩⟩ "").2.1 = false ∧
    (Initialize
        (Initialize processStart ⟨some 100, some 200, ⟨some 1, FLUID_FAILED⟩⟩ "").1
        ⟨some 101, some 201, ⟨some 2, 0⟩⟩ "").2.1 = false ∧
    (Initialize
        (Initialize processStart ⟨some 100, some 200, ⟨some 1, FLUID_FAILED⟩⟩ "").1
        ⟨some 101, some 201, ⟨some 2, 0⟩⟩ "").2.2 = "" := by
  refine ⟨by decide, by decide, by rfl⟩

/-- C15, amended: a first call of `Initialize` (statics unset) that returns
failure, the engine reporting a failed load also for a synth it could not
create, sets `error_message` to "Could not load soundfont."; every later call
returns the latched failure and leaves `error_message` as the caller passed
it. -/
theorem Initialize_failure_message (w : World) (r : InitReply) (e : String)
    (honce : w.once = false) (hinit : w.init = false)
    (heng : r.synth.syn = none → r.synth.sfload = FLUID_FAILED)
    (hfail : (Initialize w r e).2.1 = false) :
    (Initialize w r e).2.2 = "Could not load soundfont." ∧
      (∀ (r2 : InitReply) (e2 : String),
        Initialize (Initialize w r e).1 r2 e2 = ((Initialize w r e).1, false, e2)) := by
  constructor
  · rw [Initialize_first_eq w r e honce] at hfail ⊢
    dsimp only at hfail ⊢
    generalize (if w.global_settings = none
      then setupSettings { w with once := true } r else { w with once := true }) = w1
      at hfail ⊢
    by_cases h2 : w1.global_synth = none
    · rw [if_pos h2] at hfail ⊢
      by_cases h3 : (create_synth w1 r.synth e).2.1 = none
      · rw [if_pos h3]
        dsimp only
        unfold create_synth at h3 ⊢
        dsimp only at h3 ⊢
        by_cases hf : r.synth.sfload = FLUID_FAILED
        · rw [if_pos hf]
        · rw [if_neg hf] at h3
          exact absurd (heng h3) hf
      · rw [if_neg h3] at hfail
        cases hfail
    · rw [if_neg h2] at hfail
      cases hfail
  · intro r2 e2
    obtain ⟨h1, h2⟩ := Initialize_latch w r e (fun _ => hinit)
    rw [Initialize_again _ r2 e2 h1, h2, hfail]

theorem Initialize_failure_message_witness :
    processStart.once = false ∧ processStart.init = false ∧
    (Initialize processStart ⟨some 100, some 200, ⟨some 1, FLUID_FAILED⟩⟩ "").2.1 = false ∧
    (Initialize processStart ⟨some 100, some 200, ⟨some 1, FLUID_FAILED⟩⟩ "").2.2 =
      "Could not load soundfont." :=
  ⟨rfl, rfl, by decide,
    (Initialize_failure_message processStart ⟨some 100, some 200, ⟨some 1, FLUID_FAILED⟩⟩ ""
      rfl rfl (by decide) (by decide)).1⟩

/-! ## Seeking on an exhausted stream -/

/-- A read that asks for more than is left exhausts a good stream: it delivers
the rest and sets the end-of-data flag. -/
theorem read_past_end_sets_eof (f : InputStream) (count : Int) (hg : f.good = true)
    (h : (f.data.drop f.pos).length < count.toNat) :
    (vio_read f count).1.eofbit = true ∧ (vio_read f count).2.1 = f.data.drop f.pos := by
  have htake : (f.data.drop f.pos).take count.toNat = f.data.drop f.pos :=
    List.take_of_length_le (Nat.le_of_lt h)
  simp only [vio_read, InputStream.read, hg, if_true, htake, if_pos h]
  exact ⟨trivial, trivial⟩

/-- Without the `clear()` of `vio_seek`, an exhausted stream stays blocked: a
seek to the beginning does not move it, `tellg` answers `-1` and a read
delivers nothing. -/
theorem seekg_blocked_while_flagged (f : InputStream) (count : Int)
    (hfail : f.failbit = true) :
    (f.seekg 0 .beg).tellg = -1 ∧ ((f.seekg 0 .beg).read count).2 = [] := by
  simp [InputStream.seekg, InputStream.fail, InputStream.tellg, InputStream.read,
    InputStream.good, hfail]

/-- C16: for a stream flagged at end-of-data, `vio_seek` with offset 0 from the
beginning clears the flag before seeking and returns the new absolute position
0; the stream is then at position 0 with no state bit set, a following
`vio_tell` returns 0 and a following `vio_read` of `count ≥ 0` bytes delivers
the leading `min(count, size)` bytes of the data. -/
theorem vio_seek_start_rewinds_exhausted_stream (f : InputStream) (count : Int)
    (heof : f.eofbit = true) (hcount : 0 ≤ count) :
    (vio_seek f 0 SEEK_SET).1 = { f.clear with pos := 0 } ∧
      (vio_seek f 0 SEEK_SET).1.eof = false ∧
      (vio_seek f 0 SEEK_SET).2 = 0 ∧
      vio_tell (vio_seek f 0 SEEK_SET).1 = 0 ∧
      (vio_read (vio_seek f 0 SEEK_SET).1 count).2.1 = f.data.take count.toNat ∧
      (vio_read (vio_seek f 0 SEEK_SET).1 count).2.2 = min count f.data.length := by
  have hs : (vio_seek f 0 SEEK_SET).1 = { f.clear with pos := 0 } := by
    simp [vio_seek, InputStream.eof, heof, InputStream.clear, InputStream.seekg,
      InputStream.fail, CSeekdirToCppSeekdir, SEEK_SET, SEEK_CUR, SEEK_END]
  have ht : (vio_seek f 0 SEEK_SET).2 = 0 := by
    simp [vio_seek, InputStream.eof, heof, InputStream.clear, InputStream.seekg,
      InputStream.fail, InputStream.tellg, CSeekdirToCppSeekdir, SEEK_SET, SEEK_CUR,
      SEEK_END]
  have hbytes : (vio_read { f.clear with pos := 0 } count).2.1 = f.data.take count.toNat := by
    simp only [vio_read, InputStream.read, InputStream.good, InputStream.clear]
    simp only [Bool.not_false, Bool.and_self, if_true, List.drop_zero]
    split_ifs <;> rfl
  have hret : (vio_read { f.clear with pos := 0 } count).2.2
      = ((f.data.take count.toNat).length : Int) := by
    simp only [vio_read, InputStream.read, InputStream.good, InputStream.clear]
    simp only [Bool.not_false, Bool.and_self, if_true, List.drop_zero]
    split_ifs <;> rfl
  refine ⟨hs, ?_, ht, ?_, ?_, ?_⟩
  · rw [hs]
    rfl
  · rw [hs]
    simp [vio_tell, InputStream.tellg, InputStream.fail, InputStream.clear]
  · rw [hs, hbytes]
  · rw [hs, hret, List.length_take]
    have h1 : ((count.toNat : Nat) : Int) = count := Int.toNat_of_nonneg hcount
    omega

theorem vio_seek_start_rewinds_exhausted_stream_witness :
    (vio_read ⟨[10, 20, 30], 0, false, false, false⟩ 5).1.eofbit = true ∧
    (0 : Int) ≤ 2 ∧
    (vio_read (vio_seek (vio_read ⟨[10, 20, 30], 0, false, false, false⟩ 5).1 0 SEEK_SET).1
      2).2.1 = [10, 20] := by
  have h := vio_seek_start_rewinds_exhausted_stream
    (vio_read ⟨[10, 20, 30], 0, false, false, false⟩ 5).1 2 (by decide) (by decide)
  exact ⟨by decide, by decide, h.2.2.2.2.1⟩

end FluidSynth
